import Mathlib

/-!
# rtl_fuzz: option handling and test-vector dispatch

A shallow embedding of `src/rtl_fuzz.c` (the fuzzing target of rtl_433):
the option handler `parse_conf_option`, the finalisation step of `main`
and the dispatcher `process_test_data`.

Conventions of the embedding

* A C string is the list of its characters before the terminating NUL.
  A `char *` that may be `NULL` is an `Option`.
* `int` values are `Int`; where the source negates or subtracts, the result
  is reduced to the 32-bit two's-complement range by `wrap32`.  `unsigned`
  values are `Nat` below `2^32`.  `long` is 64 bits wide (LP64).
* Calls that leave the function (`exit`) and reads outside the descriptor
  table are explicit: a run ends with a `Stop` value.
* Every observable step (diagnostic, table read, registry operation,
  decoder call) is appended to a trace of `Event`s, in program order.
-/

namespace RtlFuzz

/-- A C string: the characters before the terminating NUL. -/
abbrev CString := List Char

/-! ## C library: `isspace`, `strtol`, `atoi` -/

/-- The C locale `isspace`: space, `\t`, `\n`, `\v`, `\f`, `\r`. -/
def isspace (c : Char) : Bool :=
  c.toNat = 32 || (9 ≤ c.toNat && c.toNat ≤ 13)

/-- The C locale `isdigit`. -/
def isdigit (c : Char) : Bool :=
  48 ≤ c.toNat && c.toNat ≤ 57

/-- Value of a string of decimal digits, most significant first. -/
def digits_value (ds : List Char) : Nat :=
  ds.foldl (fun acc c => 10 * acc + (c.toNat - 48)) 0

/-- The constant `LONG_MAX` of a 64-bit `long`. -/
def LONG_MAX : Int := 2 ^ 63 - 1

/-- The constant `LONG_MIN` of a 64-bit `long`. -/
def LONG_MIN : Int := -(2 ^ 63)

/-- The text left after leading white space is skipped. -/
def skip_space (nptr : CString) : CString :=
  nptr.dropWhile isspace

/-- Whether the subject sequence of `strtol` starts with a minus sign. -/
def has_minus (nptr : CString) : Bool :=
  (skip_space nptr).head? = some '-'

/-- The text after white space and the optional sign. -/
def after_sign (nptr : CString) : CString :=
  if (skip_space nptr).head? = some '-' ∨ (skip_space nptr).head? = some '+' then
    (skip_space nptr).tail
  else
    skip_space nptr

/-- The call `strtol(nptr, &e, 10)`: the converted value and the text at `e`.
White space is skipped, one sign is accepted, then the longest run of
decimal digits is converted; out-of-range values are clamped to
`LONG_MIN`/`LONG_MAX`.  When there is no digit the value is 0 and `e` is
`nptr` itself. -/
def strtol (nptr : CString) : Int × CString :=
  if (after_sign nptr).takeWhile isdigit = [] then
    (0, nptr)
  else
    let acc : Int := digits_value ((after_sign nptr).takeWhile isdigit)
    let v : Int := if has_minus nptr then max (-acc) LONG_MIN else min acc LONG_MAX
    (v, (after_sign nptr).dropWhile isdigit)

/-- Reduction of an integer to the range of a 32-bit `int`
(two's complement wrap-around). -/
def wrap32 (v : Int) : Int :=
  (v + 2 ^ 31) % 2 ^ 32 - 2 ^ 31

/-- Conversion of an integer to `unsigned` (32 bits). -/
def to_unsigned (v : Int) : Nat :=
  (v % 2 ^ 32).toNat

/-- The call `atoi(s)`, that is `(int) strtol(s, NULL, 10)`. -/
def atoi (s : CString) : Int :=
  wrap32 (strtol s).1

/-! ## Data model -/

/-- Modelled from the spec: the declaration of the protocol descriptor
`r_device` (r_device.h) is missing from the sources.  It has the fields
that `rtl_fuzz.c` reads: the numeric id `protocol_num`, the `name` and the
tier `disabled` (0 enabled by default, 1 disabled by default, 2 hidden,
above 2 invalid); `param` is the spec's configuration parameter, attached
to a descriptor when it is activated. -/
structure r_device where
  protocol_num : Nat
  name : CString
  disabled : Nat
  param : Option CString
  deriving DecidableEq

/-- Modelled from the spec: the declaration of `struct dm_state`
(r_private.h) is missing from the sources.  It is reduced to `r_devs`, the
list of registered decoders that `rtl_fuzz.c` walks: the spec's Activation
Set, in order of insertion. -/
structure dm_state where
  r_devs : List r_device
  deriving DecidableEq

/-- Modelled from the spec: the declaration of the configuration `r_cfg_t`
(rtl_433.h) is missing from the sources.  It has the fields that
`rtl_fuzz.c` uses: verbosity, sample rate, the frequency array with its
count, the flag `no_default_devices`, the descriptor table `devices` with
its length `num_r_devices`, and the demodulator state. -/
structure r_cfg_t where
  verbosity : Int
  samp_rate : Nat
  frequency : List Nat
  frequencies : Nat
  no_default_devices : Nat
  num_r_devices : Nat
  devices : List r_device
  demod : dm_state
  deriving DecidableEq

/-- Constants and helpers that `rtl_fuzz.c` uses and that are declared in
other files of the repository.  They are parameters of the embedding. -/
structure Externals where
  /-- Capacity of the frequency array. -/
  MAX_FREQS : Nat
  /-- Frequency above which the sample rate default is raised. -/
  FSK_PULSE_DETECTOR_LIMIT : Nat
  /-- The default sample rate. -/
  DEFAULT_SAMPLE_RATE : Nat
  /-- Helper `atobv(arg, 1)`. -/
  atobv : CString → Int
  /-- Helper `atouint32_metric(arg, msg)`: the parsed number, or the exit
  status with which the helper ends the process. -/
  atouint32_metric : Option CString → Except Nat Nat
  /-- Helper `arg_param(arg)`: the trailing parameter string of an argument. -/
  arg_param : Option CString → Option CString
  /-- Decoder entry `pulse_demod_string(code, device)`. -/
  pulse_demod_string : CString → r_device → Int

/-- Diagnostics written to `stderr`. -/
inductive Diag where
  | processing_test_data (line : CString)
  | bad_protocol_number (first5 : CString)
  | unknown_protocol_number (d : Nat)
  | verifying_test_data (name : CString)
  | all_decoders_not_supported
  | new_defaults_active
  | max_frequencies_reached (n : Nat)
  | missing_argument_for_R
  | protocol_number_too_large (n : Int)
  | protocol_number_invalid (n : Int)
  | disabling_all_decoders
  deriving DecidableEq

/-- Observable steps of a run, recorded in program order. -/
inductive Event where
  /-- An `fprintf(stderr, ...)`. -/
  | stderr (d : Diag)
  /-- A read of `cfg->devices[i]`. -/
  | devices_read (i : Int)
  /-- The assignment `cfg->no_default_devices = 1`. -/
  | no_default_devices_set
  /-- A call of `register_all_protocols(cfg, disabled)`. -/
  | register_all_protocols (disabled : Nat)
  /-- A call of `register_protocol(cfg, r_dev, arg)`. -/
  | register_protocol (r_dev : r_device) (arg : Option CString)
  /-- A call of `unregister_protocol(cfg, r_dev)`. -/
  | unregister_protocol (r_dev : r_device)
  /-- A call of `list_clear(&cfg->demod->r_devs, free_protocol)`. -/
  | list_clear
  /-- A write `cfg->frequency[i] = sr`. -/
  | frequency_write (i : Nat) (sr : Nat)
  /-- A read of one element of `demod->r_devs` by the dispatcher loop. -/
  | r_devs_read (r_dev : r_device)
  /-- A call of `pulse_demod_string(e, r_dev)`. -/
  | pulse_demod_string (e : CString) (r_dev : r_device)
  deriving DecidableEq

/-! ## The dispatcher `process_test_data` -/

/-- Result of one call of `process_test_data`: the returned `int` and the
trace of the call. -/
structure TestRun where
  ret : Int
  trace : List Event
  deriving DecidableEq

/-- The lookup loop of `process_test_data` (lines 183-189): walk `r_devs`
from the front and stop at the first entry whose `protocol_num` is `d`.
Returns the reads performed and the entry found (`NULL` when none). -/
def scan_r_devs (d : Nat) : List r_device → List Event × Option r_device
  | [] => ([], none)
  | r_dev_i :: rest =>
    if r_dev_i.protocol_num = d then
      ([Event.r_devs_read r_dev_i], some r_dev_i)
    else
      (Event.r_devs_read r_dev_i :: (scan_r_devs d rest).1, (scan_r_devs d rest).2)

/-- The verbose-only diagnostic: emitted when `cfg->verbosity` is non-zero. -/
def verbose_msg (cfg : r_cfg_t) (d : Diag) : List Event :=
  if cfg.verbosity ≠ 0 then [Event.stderr d] else []

/-- The function `process_test_data(cfg, demod, line)` (lines 168-203). -/
def process_test_data (x : Externals) (cfg : r_cfg_t) (demod : dm_state)
    (line : CString) : TestRun :=
  let t0 := verbose_msg cfg (Diag.processing_test_data line)
  let r : Int := 0
  if line.head? = some '[' then
    let d : Nat := to_unsigned (strtol line.tail).1
    let e : CString := (strtol line.tail).2
    if e.head? ≠ some ']' then
      ⟨-1, t0 ++ [Event.stderr (Diag.bad_protocol_number (line.take 5))]⟩
    else
      let e := e.tail
      match (scan_r_devs d demod.r_devs).2 with
      | none =>
        ⟨-1, t0 ++ (scan_r_devs d demod.r_devs).1
              ++ [Event.stderr (Diag.unknown_protocol_number d)]⟩
      | some r_dev =>
        ⟨r + x.pulse_demod_string e r_dev,
          t0 ++ (scan_r_devs d demod.r_devs).1
             ++ verbose_msg cfg (Diag.verifying_test_data r_dev.name)
             ++ [Event.pulse_demod_string e r_dev]⟩
  else
    ⟨-1, t0 ++ [Event.stderr Diag.all_decoders_not_supported]⟩

/-! ## The registry operations

`register_protocol`, `unregister_protocol`, `register_all_protocols`,
`update_protocols` (r_api.c) and `list_clear` (list.c) are called by
`rtl_fuzz.c` but defined elsewhere in the repository. -/

/-- Modelled from the spec: `register_protocol` (r_api.c) is missing from
the sources.  The spec has the option handler "activate descriptor n,
attaching the optional trailing parameter string to its configuration", and
the Activation Set hold "at most one entry per numeric id", in order of
insertion: an entry with the id of the descriptor that is already in the set
is released, and the activated entry, with the parameter attached, is pushed
at the end of `r_devs`. -/
def register_protocol (cfg : r_cfg_t) (r_dev : r_device) (arg : Option CString) : r_cfg_t :=
  { cfg with demod :=
      { r_devs :=
          cfg.demod.r_devs.filter (fun p => p.protocol_num ≠ r_dev.protocol_num)
            ++ [{ r_dev with param := arg }] } }

/-- Modelled from the spec: `unregister_protocol` (r_api.c) is missing from
the sources.  The spec has it "deactivate descriptor n (removing and
releasing it from the Activation Set)"; descriptors are identified by their
numeric id. -/
def unregister_protocol (cfg : r_cfg_t) (r_dev : r_device) : r_cfg_t :=
  { cfg with demod :=
      { r_devs := cfg.demod.r_devs.filter (fun p => p.protocol_num ≠ r_dev.protocol_num) } }

/-- Modelled from the spec: `register_all_protocols` (r_api.c) is missing
from the sources.  The spec knows its two uses.  The call with 0 (commented
"register all defaults") is the default activation, "activate every tier-0
descriptor".  The call with 1 is register-all, "force-activate every
descriptor in the table regardless of tier, ignoring the
default-disabled/hidden distinction".  So with 0 the descriptors of tier 0
and with any other argument all descriptors are activated, in table order
and without parameter. -/
def register_all_protocols (cfg : r_cfg_t) (disabled : Nat) : r_cfg_t :=
  cfg.devices.foldl
    (fun c r_dev =>
      if disabled ≠ 0 ∨ r_dev.disabled = 0 then register_protocol c r_dev none else c) cfg

/-- Modelled from the spec: `list_clear` (list.c) with `free_protocol` is
missing from the sources.  The spec has it "clear the entire Activation Set
(every previously activated descriptor is released)". -/
def list_clear (cfg : r_cfg_t) : r_cfg_t :=
  { cfg with demod := { r_devs := [] } }

/-- Modelled from the spec: `update_protocols` (r_api.c) is missing from the
sources.  The spec has this branch "finalize the Activation Set as-is (no
further descriptors added)". -/
def update_protocols (cfg : r_cfg_t) : r_cfg_t :=
  cfg

/-! ## The option handler `parse_conf_option` -/

/-- How a run ends when it does not return. -/
inductive Stop where
  /-- The call `exit(status)`. -/
  | exit (status : Nat)
  /-- A read of `cfg->devices[i]` outside the table (undefined behaviour). -/
  | out_of_bounds (i : Int)
  deriving DecidableEq

/-- Result of running a piece of the option processing: the configuration
reached (at the point of the stop, when the run stops), the trace, and the
stop if the run did not return. -/
structure Run where
  cfg : r_cfg_t
  trace : List Event
  stop : Option Stop
  deriving DecidableEq

/-- A run that returns at once. -/
def Run.skip (cfg : r_cfg_t) : Run :=
  ⟨cfg, [], none⟩

/-- Sequencing: the second piece runs only when the first returned. -/
def Run.bind (r : Run) (f : r_cfg_t → Run) : Run :=
  match r.stop with
  | some _ => r
  | none => ⟨(f r.cfg).cfg, r.trace ++ (f r.cfg).trace, (f r.cfg).stop⟩

/-- The element `cfg->devices[i]`: defined for `0 ≤ i < N` only. -/
def devices_at (cfg : r_cfg_t) (i : Int) : Option r_device :=
  if 0 ≤ i then cfg.devices.get? i.toNat else none

/-- The table index computed from a non-zero `n`: `n - 1` for `n > 0` and
`-n - 1` for `n < 0`, in `int` arithmetic. -/
def R_index (n : Int) : Int :=
  if n > 0 then n - 1 else wrap32 (wrap32 (-n) - 1)

/-- Lines 137-140: the range check `n > num_r_devices || -n > num_r_devices`. -/
def R_range_check (cfg : r_cfg_t) (n : Int) : Run :=
  if n > (cfg.num_r_devices : Int) ∨ wrap32 (-n) > (cfg.num_r_devices : Int) then
    ⟨cfg, [Event.stderr (Diag.protocol_number_too_large n)], some (Stop.exit 1)⟩
  else
    Run.skip cfg

/-- Lines 141-144: the tier check.  For `n ≠ 0` the descriptor at
`R_index n` is read and `disabled > 2` is fatal; for `n = 0` both
conjunctions are cut short and nothing is read. -/
def R_tier_check (cfg : r_cfg_t) (n : Int) : Run :=
  if n > 0 ∨ n < 0 then
    match devices_at cfg (R_index n) with
    | none =>
      ⟨cfg, [Event.devices_read (R_index n)], some (Stop.out_of_bounds (R_index n))⟩
    | some r_dev =>
      if r_dev.disabled > 2 then
        ⟨cfg, [Event.devices_read (R_index n), Event.stderr (Diag.protocol_number_invalid n)],
          some (Stop.exit 1)⟩
      else
        ⟨cfg, [Event.devices_read (R_index n)], none⟩
  else
    Run.skip cfg

/-- Lines 146-149: register the defaults before a removal when they were
not suppressed yet, then set `no_default_devices`. -/
def R_defaults (cfg : r_cfg_t) (n : Int) : Run :=
  if n < 0 ∧ cfg.no_default_devices = 0 then
    ⟨{ register_all_protocols cfg 0 with no_default_devices := 1 },
      [Event.register_all_protocols 0, Event.no_default_devices_set], none⟩
  else
    ⟨{ cfg with no_default_devices := 1 }, [Event.no_default_devices_set], none⟩

/-- Lines 151-160: register for `n ≥ 1`, unregister for `n ≤ -1`, clear
the list for `n = 0`. -/
def R_apply (x : Externals) (cfg : r_cfg_t) (n : Int) (arg : CString) : Run :=
  if n ≥ 1 then
    match devices_at cfg (n - 1) with
    | none => ⟨cfg, [Event.devices_read (n - 1)], some (Stop.out_of_bounds (n - 1))⟩
    | some r_dev =>
      ⟨register_protocol cfg r_dev (x.arg_param (some arg)),
        [Event.devices_read (n - 1), Event.register_protocol r_dev (x.arg_param (some arg))],
        none⟩
  else if n ≤ -1 then
    match devices_at cfg (wrap32 (wrap32 (-n) - 1)) with
    | none =>
      ⟨cfg, [Event.devices_read (wrap32 (wrap32 (-n) - 1))],
        some (Stop.out_of_bounds (wrap32 (wrap32 (-n) - 1)))⟩
    | some r_dev =>
      ⟨unregister_protocol cfg r_dev,
        [Event.devices_read (wrap32 (wrap32 (-n) - 1)), Event.unregister_protocol r_dev], none⟩
  else
    ⟨list_clear cfg, [Event.stderr Diag.disabling_all_decoders, Event.list_clear], none⟩

/-- Lines 130-161: `case 'R'` of `parse_conf_option`. -/
def option_R (x : Externals) (cfg : r_cfg_t) (arg : Option CString) : Run :=
  match arg with
  | none => ⟨cfg, [Event.stderr Diag.missing_argument_for_R], some (Stop.exit 1)⟩
  | some a =>
    (((R_range_check cfg (atoi a)).bind fun c =>
      R_tier_check c (atoi a)).bind fun c =>
      R_defaults c (atoi a)).bind fun c =>
      R_apply x c (atoi a) a

/-- Lines 110-122: `case 'f'` of `parse_conf_option`. -/
def option_f (x : Externals) (cfg : r_cfg_t) (arg : Option CString) : Run :=
  if cfg.frequencies < x.MAX_FREQS then
    match x.atouint32_metric arg with
    | Except.error status => ⟨cfg, [], some (Stop.exit status)⟩
    | Except.ok sr =>
      if sr > x.FSK_PULSE_DETECTOR_LIMIT ∧ cfg.samp_rate = x.DEFAULT_SAMPLE_RATE then
        ⟨{ cfg with samp_rate := 1000000,
                    frequency := cfg.frequency.set cfg.frequencies sr,
                    frequencies := cfg.frequencies + 1 },
          [Event.stderr Diag.new_defaults_active, Event.frequency_write cfg.frequencies sr],
          none⟩
      else
        ⟨{ cfg with frequency := cfg.frequency.set cfg.frequencies sr,
                    frequencies := cfg.frequencies + 1 },
          [Event.frequency_write cfg.frequencies sr], none⟩
  else
    ⟨cfg, [Event.stderr (Diag.max_frequencies_reached x.MAX_FREQS)], none⟩

/-- The function `parse_conf_option(cfg, opt, arg)` (lines 99-166). -/
def parse_conf_option (x : Externals) (cfg : r_cfg_t) (opt : Char)
    (arg : Option CString) : Run :=
  if opt = 'v' then
    match arg with
    | none => ⟨{ cfg with verbosity := wrap32 (cfg.verbosity + 1) }, [], none⟩
    | some a => ⟨{ cfg with verbosity := x.atobv a }, [], none⟩
  else if opt = 'f' then
    option_f x cfg arg
  else if opt = 'G' then
    ⟨register_all_protocols { cfg with no_default_devices := 1 } 1,
      [Event.no_default_devices_set, Event.register_all_protocols 1], none⟩
  else if opt = 's' then
    match x.atouint32_metric arg with
    | Except.error status => ⟨cfg, [], some (Stop.exit status)⟩
    | Except.ok sr => ⟨{ cfg with samp_rate := sr }, [], none⟩
  else if opt = 'R' then
    option_R x cfg arg
  else
    ⟨cfg, [], some (Stop.exit 1)⟩

/-! ## The finalisation step of `main` -/

/-- Lines 237-243 of `main`: register the default decoders if nothing is
configured, otherwise `update_protocols`. -/
def main_finalize (cfg : r_cfg_t) : Run :=
  if cfg.no_default_devices = 0 then
    ⟨register_all_protocols cfg 0, [Event.register_all_protocols 0], none⟩
  else
    ⟨update_protocols cfg, [], none⟩

/-- Lines 226-230 of `main`: the table is installed in the configuration
and the descriptors are numbered `1 .. N` in table order. -/
def main_install (cfg : r_cfg_t) (r_devices : List r_device) : r_cfg_t :=
  { cfg with
    num_r_devices := r_devices.length
    devices := r_devices.enum.map fun p => { p.2 with protocol_num := p.1 + 1 } }

/-- The table invariant that `main` sets up: `num_r_devices` is the table
length, it is in the range of an `int` (the range check compares it with
the `int` n), and the descriptors are numbered from 1 in table order. -/
def table_ok (cfg : r_cfg_t) : Prop :=
  cfg.num_r_devices = cfg.devices.length ∧ cfg.num_r_devices < 2 ^ 31 ∧
    cfg.devices.map (fun r_dev => r_dev.protocol_num) = List.range' 1 cfg.devices.length

instance (cfg : r_cfg_t) : Decidable (table_ok cfg) := by
  unfold table_ok; infer_instance

/-- The decoder calls of a trace, in order: payload and descriptor. -/
def decode_calls : List Event → List (CString × r_device)
  | [] => []
  | Event.pulse_demod_string e r_dev :: t => (e, r_dev) :: decode_calls t
  | _ :: t => decode_calls t

/-- The elements of the Activation Set read in a trace, in order. -/
def r_devs_reads : List Event → List r_device
  | [] => []
  | Event.r_devs_read r_dev :: t => r_dev :: r_devs_reads t
  | _ :: t => r_devs_reads t

/-- The line grammar in the words of the spec: `[`, then a non-negative
decimal integer (one or more decimal digits, nothing else), then `]`.
Returns the numeric value of the integer when the line has this form. -/
def plain_id (line : CString) : Option Nat :=
  if line.head? = some '[' ∧ line.tail.takeWhile isdigit ≠ [] ∧
      (line.tail.dropWhile isdigit).head? = some ']' then
    some (digits_value (line.tail.takeWhile isdigit))
  else
    none

/-! ## Option sources and `main` -/

/-- One result of `getopt(argc, argv, OPTSTRING)`: the returned letter,
`optopt` and `optarg`. -/
structure getopt_result where
  opt : Char
  optopt : Char
  optarg : Option CString
  deriving DecidableEq

/-- Lines 93-94: `if (opt == '?') opt = optopt`, the letter that is
handed to `parse_conf_option`. -/
def option_letter (g : getopt_result) : Char :=
  if g.opt = '?' then g.optopt else g.opt

/-- The function `parse_conf_args` (lines 87-97) over the results that
`getopt` delivers, in order: a `'?'` is replaced by `optopt`, then the
option goes to `parse_conf_option`.  Processing ends at the first option
that does not return. -/
def parse_conf_args (x : Externals) (cfg : r_cfg_t) : List getopt_result → Run
  | [] => Run.skip cfg
  | g :: rest =>
    (parse_conf_option x cfg (option_letter g) g.optarg).bind
      fun c => parse_conf_args x c rest

/-- Modelled from the spec: `r_init_cfg` (r_api.c) is missing from the
sources.  The spec has the configuration "initialized to defaults" and the
Activation Set "created empty": verbosity 0, the default sample rate, no
frequency, `no_default_devices` clear, no table yet. -/
def r_init_cfg (x : Externals) : r_cfg_t :=
  ⟨0, x.DEFAULT_SAMPLE_RATE, List.replicate x.MAX_FREQS 0, 0, 0, 0, [], ⟨[]⟩⟩

/-- Result of `main`: the exit status (`none` when the run left defined
behaviour by a read outside the table) and the trace. -/
structure MainRun where
  status : Option Nat
  trace : List Event
  deriving DecidableEq

/-- The function `main` (lines 207-253) over the descriptor list `DEVICES`,
the results of `getopt` and the line that `fgets` delivers (`none` at end
of input).  The output handler and the release of the configuration
(`add_json_output`, `r_free_cfg`) touch no field of the embedding. -/
def main (x : Externals) (r_devices : List r_device) (opts : List getopt_result)
    (line : Option CString) : MainRun :=
  match ((parse_conf_args x (main_install (r_init_cfg x) r_devices) opts).bind main_finalize) with
  | ⟨_, t, some (Stop.exit status)⟩ => ⟨some status, t⟩
  | ⟨_, t, some (Stop.out_of_bounds _)⟩ => ⟨none, t⟩
  | ⟨cfg, t, none⟩ =>
    match line with
    | none => ⟨some (if (0 : Int) < 0 then 1 else 0), t⟩
    | some l =>
      ⟨some (if (process_test_data x cfg cfg.demod l).ret < 0 then 1 else 0),
        t ++ (process_test_data x cfg cfg.demod l).trace⟩

/-- The writes to the frequency array in a trace, in order: the indices. -/
def frequency_writes : List Event → List Nat
  | [] => []
  | Event.frequency_write i _ :: t => i :: frequency_writes t
  | _ :: t => frequency_writes t

/-- The reads of the descriptor table in a trace, in order: the indices. -/
def devices_reads : List Event → List Int
  | [] => []
  | Event.devices_read i :: t => i :: devices_reads t
  | _ :: t => devices_reads t

/-- The registry calls of a trace that add entries: `register_protocol`
and `register_all_protocols`. -/
def register_calls : List Event → List Event
  | [] => []
  | Event.register_protocol r_dev arg :: t => Event.register_protocol r_dev arg :: register_calls t
  | Event.register_all_protocols lvl :: t => Event.register_all_protocols lvl :: register_calls t
  | _ :: t => register_calls t

/-- An entry of the Activation Set refers to a descriptor of the table: it
is that descriptor, with some parameter attached. -/
def refers_to_table (cfg : r_cfg_t) (p : r_device) : Prop :=
  ∃ r_dev ∈ cfg.devices, p = { r_dev with param := p.param }

/-- Every entry of the Activation Set refers to a descriptor of the table. -/
def entries_in_table (cfg : r_cfg_t) : Prop :=
  ∀ p ∈ cfg.demod.r_devs, refers_to_table cfg p

/-- The Activation Set holds at most one entry per numeric id. -/
def unique_ids (cfg : r_cfg_t) : Prop :=
  (cfg.demod.r_devs.map fun p => p.protocol_num).Nodup

instance (cfg : r_cfg_t) : Decidable (unique_ids cfg) := by
  unfold unique_ids; infer_instance

/-- A `getopt` result for the option `opt` with argument `arg`. -/
def demo_opt (opt : Char) (arg : Option CString) : getopt_result :=
  ⟨opt, opt, arg⟩

/-- The entries of `r_devs` after the decoder ran on the first entry
numbered `d`: that entry is the descriptor as the decoder leaves it, the
others are untouched. -/
def update_r_dev (d : Nat) (leaves : r_device → r_device) : List r_device → List r_device
  | [] => []
  | p :: rest =>
    if p.protocol_num = d then leaves p :: rest else p :: update_r_dev d leaves rest

/-- Configuration and demodulator state after `process_test_data` (lines
168-203).  No statement of the function assigns to `*cfg` or `*demod`; the
one call that gets a pointer into them is `pulse_demod_string(e, r_dev)` of
line 196, with `r_dev` the entry found, and `leaves e r_dev` is that entry
as the call leaves it. -/
def process_test_data_state (leaves : CString → r_device → r_device) (cfg : r_cfg_t)
    (demod : dm_state) (line : CString) : r_cfg_t × dm_state :=
  if line.head? = some '[' then
    if (strtol line.tail).2.head? ≠ some ']' then
      (cfg, demod)
    else
      match (scan_r_devs (to_unsigned (strtol line.tail).1) demod.r_devs).2 with
      | none => (cfg, demod)
      | some _ =>
        (cfg, ⟨update_r_dev (to_unsigned (strtol line.tail).1)
          (leaves (strtol line.tail).2.tail) demod.r_devs⟩)
  else
    (cfg, demod)

/-- Modelled from the spec: the decoder `pulse_demod_string` (pulse_demod.c)
is missing from the sources.  The spec has the descriptors "immutable after
load" and the Activation Set "consulted read-only by the Dispatcher": the
decoder leaves the descriptor it is given as it is. -/
def decoder_leaves (_e : CString) (r_dev : r_device) : r_device :=
  r_dev

/-- Sample helpers: the decoder returns the payload length plus 100 times
the protocol number, `arg_param` is the identity. -/
def demo_externals : Externals :=
  ⟨32, 800000000, 250000, fun _ => 1, fun _ => Except.ok 433920000, fun a => a,
    fun e r_dev => e.length + 100 * r_dev.protocol_num⟩

/-- Sample table entry 1, tier 0. -/
def demo_dev1 : r_device := ⟨1, ['a'], 0, none⟩

/-- Sample table entry 2, tier 1. -/
def demo_dev2 : r_device := ⟨2, ['b'], 1, none⟩

/-- Sample table entry 3, tier 0. -/
def demo_dev3 : r_device := ⟨3, ['c'], 0, none⟩

/-- Sample table entry 4, of the invalid tier 3. -/
def demo_dev4 : r_device := ⟨4, ['d'], 3, none⟩

/-- Sample configuration: a table of four descriptors, nothing activated. -/
def demo_cfg : r_cfg_t :=
  ⟨0, 250000, List.replicate 32 0, 0, 0, 4, [demo_dev1, demo_dev2, demo_dev3, demo_dev4], ⟨[]⟩⟩

/-- Sample Activation Set: descriptors 1 and 3. -/
def demo_demod : dm_state := ⟨[demo_dev1, demo_dev3]⟩

/-- Sample configuration with descriptors 1 and 3 activated. -/
def demo_cfg_active : r_cfg_t :=
  { demo_cfg with demod := demo_demod }

/-- Sample table entry 5, of the hidden tier 2. -/
def demo_dev5 : r_device := ⟨5, ['e'], 2, none⟩

/-- Sample configuration: a table of five descriptors (tiers 0, 1, 0, 3, 2),
nothing activated. -/
def demo_cfg5 : r_cfg_t :=
  ⟨0, 250000, List.replicate 32 0, 0, 0, 5,
    [demo_dev1, demo_dev2, demo_dev3, demo_dev4, demo_dev5], ⟨[]⟩⟩

/-- Sample helpers whose `atouint32_metric` reads 868 MHz, above the
threshold of 800 MHz. -/
def demo_externals_868 : Externals :=
  { demo_externals with atouint32_metric := fun _ => Except.ok 868000000 }

/-- Sample configuration with a full frequency list and the default sample
rate. -/
def demo_cfg_full : r_cfg_t :=
  { demo_cfg with frequency := List.replicate 32 433920000, frequencies := 32 }

/-! ## Lemmas: traces -/

theorem decode_calls_append (s t : List Event) :
    decode_calls (s ++ t) = decode_calls s ++ decode_calls t := by
  induction s with
  | nil => rfl
  | cons ev s ih => cases ev <;> simp [decode_calls, ih]

theorem r_devs_reads_append (s t : List Event) :
    r_devs_reads (s ++ t) = r_devs_reads s ++ r_devs_reads t := by
  induction s with
  | nil => rfl
  | cons ev s ih => cases ev <;> simp [r_devs_reads, ih]

theorem decode_calls_verbose_msg (cfg : r_cfg_t) (d : Diag) :
    decode_calls (verbose_msg cfg d) = [] := by
  unfold verbose_msg; split <;> rfl

theorem r_devs_reads_verbose_msg (cfg : r_cfg_t) (d : Diag) :
    r_devs_reads (verbose_msg cfg d) = [] := by
  unfold verbose_msg; split <;> rfl

theorem decode_calls_scan (d : Nat) (l : List r_device) :
    decode_calls (scan_r_devs d l).1 = [] := by
  induction l with
  | nil => rfl
  | cons p l ih =>
    unfold scan_r_devs
    split
    · rfl
    · simpa [decode_calls] using ih

/-- The lookup loop finds the first entry with the wanted number. -/
theorem scan_r_devs_eq_find (d : Nat) (l : List r_device) :
    (scan_r_devs d l).2 = l.find? (fun p => decide (p.protocol_num = d)) := by
  induction l with
  | nil => rfl
  | cons p l ih =>
    unfold scan_r_devs
    by_cases h : p.protocol_num = d
    · simp [h]
    · simp [h, ih]

/-! ## Lemmas: `strtol` on a plain decimal number -/

theorem isdigit_not_isspace (c : Char) (h : isdigit c = true) : isspace c = false := by
  simp only [isdigit, isspace, Bool.and_eq_true, decide_eq_true_eq, Bool.or_eq_false_iff,
    decide_eq_false_iff_not, Bool.and_eq_false_iff] at *
  omega

theorem isdigit_ne_minus (c : Char) (h : isdigit c = true) : c ≠ '-' := by
  rintro rfl; revert h; decide

theorem isdigit_ne_plus (c : Char) (h : isdigit c = true) : c ≠ '+' := by
  rintro rfl; revert h; decide

/-- On a text that starts with a digit nothing is skipped. -/
theorem after_sign_digit (c : Char) (s : CString) (h : isdigit c = true) :
    after_sign (c :: s) = c :: s := by
  have h1 := isdigit_not_isspace c h
  have h2 := isdigit_ne_minus c h
  have h3 := isdigit_ne_plus c h
  simp [after_sign, skip_space, h1, h2, h3]

theorem has_minus_digit (c : Char) (s : CString) (h : isdigit c = true) :
    has_minus (c :: s) = false := by
  have h1 := isdigit_not_isspace c h
  have h2 := isdigit_ne_minus c h
  simp [has_minus, skip_space, h1, h2]

/-- On a non-empty run of digits that is followed by a non-digit, `strtol`
reads the run in full and stops right behind it. -/
theorem strtol_digits (ds rest : CString) (hne : ds ≠ [])
    (hd : ∀ c ∈ ds, isdigit c = true) (hr : ∀ c, rest.head? = some c → isdigit c = false) :
    strtol (ds ++ rest) = (min (digits_value ds : Int) LONG_MAX, rest) := by
  obtain ⟨c, ds1, rfl⟩ := List.exists_cons_of_ne_nil hne
  have hc : isdigit c = true := hd c (by simp)
  have hrest : rest.takeWhile isdigit = [] := by
    cases rest with
    | nil => rfl
    | cons b rest => simp [hr b rfl]
  have hrest2 : rest.dropWhile isdigit = rest := by
    cases rest with
    | nil => rfl
    | cons b rest => simp [hr b rfl]
  have htake : ((c :: ds1) ++ rest).takeWhile isdigit = c :: ds1 := by
    rw [List.takeWhile_append_of_pos hd, hrest, List.append_nil]
  have hdrop : ((c :: ds1) ++ rest).dropWhile isdigit = rest := by
    rw [List.dropWhile_append_of_pos hd, hrest2]
  have has : after_sign ((c :: ds1) ++ rest) = (c :: ds1) ++ rest :=
    after_sign_digit c (ds1 ++ rest) hc
  have hm : has_minus ((c :: ds1) ++ rest) = false := has_minus_digit c (ds1 ++ rest) hc
  unfold strtol
  rw [has, htake, hdrop, hm]
  simp

theorem to_unsigned_of_lt (d : Nat) (h : d < 2 ^ 32) :
    to_unsigned (min (d : Int) LONG_MAX) = d := by
  have h1 : min (d : Int) LONG_MAX = d := by
    apply min_eq_left
    unfold LONG_MAX
    omega
  rw [h1]
  unfold to_unsigned
  omega

/-! ## Lemmas: the three outcomes of `process_test_data` -/

/-- A line that does not start with `[` is rejected at once. -/
theorem process_test_data_no_bracket (x : Externals) (cfg : r_cfg_t) (demod : dm_state)
    (line : CString) (h : line.head? ≠ some '[') :
    process_test_data x cfg demod line =
      ⟨-1, verbose_msg cfg (Diag.processing_test_data line)
            ++ [Event.stderr Diag.all_decoders_not_supported]⟩ := by
  unfold process_test_data
  simp [h]

/-- A line whose number is not closed by `]` is rejected before the lookup. -/
theorem process_test_data_bad_number (x : Externals) (cfg : r_cfg_t) (demod : dm_state)
    (line : CString) (h : line.head? = some '[')
    (he : (strtol line.tail).2.head? ≠ some ']') :
    process_test_data x cfg demod line =
      ⟨-1, verbose_msg cfg (Diag.processing_test_data line)
            ++ [Event.stderr (Diag.bad_protocol_number (line.take 5))]⟩ := by
  unfold process_test_data
  simp [h, he]

/-- A line with a closed number: the outcome is decided by the lookup. -/
theorem process_test_data_lookup (x : Externals) (cfg : r_cfg_t) (demod : dm_state)
    (line : CString) (h : line.head? = some '[')
    (he : (strtol line.tail).2.head? = some ']') :
    process_test_data x cfg demod line =
      match demod.r_devs.find?
          (fun p => decide (p.protocol_num = to_unsigned (strtol line.tail).1)) with
      | none =>
        ⟨-1, verbose_msg cfg (Diag.processing_test_data line)
              ++ (scan_r_devs (to_unsigned (strtol line.tail).1) demod.r_devs).1
              ++ [Event.stderr (Diag.unknown_protocol_number (to_unsigned (strtol line.tail).1))]⟩
      | some r_dev =>
        ⟨x.pulse_demod_string (strtol line.tail).2.tail r_dev,
          verbose_msg cfg (Diag.processing_test_data line)
             ++ (scan_r_devs (to_unsigned (strtol line.tail).1) demod.r_devs).1
             ++ verbose_msg cfg (Diag.verifying_test_data r_dev.name)
             ++ [Event.pulse_demod_string (strtol line.tail).2.tail r_dev]⟩ := by
  unfold process_test_data
  simp only [h, he, if_true, ne_eq, not_true_eq_false, if_false, scan_r_devs_eq_find]
  cases demod.r_devs.find?
      (fun p => decide (p.protocol_num = to_unsigned (strtol line.tail).1)) <;> simp

/-- The result of `strtol` on the text behind `[` of a well-formed line. -/
theorem strtol_well_formed (digits payload : CString) (hne : digits ≠ [])
    (hd : ∀ c ∈ digits, isdigit c = true) :
    strtol ('[' :: digits ++ ']' :: payload).tail
      = (min (digits_value digits : Int) LONG_MAX, ']' :: payload) := by
  have := strtol_digits digits (']' :: payload) hne hd (by
    intro c hc
    simp only [List.head?_cons, Option.some.injEq] at hc
    subst hc
    decide)
  simpa using this

/-! ## Claims about `process_test_data` -/

/-- C1. A well-formed line `[digits]payload`, with the value `d` of the
digits below `2^32` and some active descriptor numbered `d`, returns
exactly what `pulse_demod_string` returns on `payload` and the first
descriptor of the Activation Set numbered `d`; that call is the only
decoder call. -/
theorem process_test_data_well_formed (x : Externals) (cfg : r_cfg_t) (demod : dm_state)
    (digits payload : CString) (hne : digits ≠ [])
    (hd : ∀ c ∈ digits, isdigit c = true) (h32 : digits_value digits < 2 ^ 32)
    (hact : ∃ p ∈ demod.r_devs, p.protocol_num = digits_value digits) :
    ∃ r_dev,
      demod.r_devs.find? (fun p => decide (p.protocol_num = digits_value digits)) = some r_dev ∧
      (process_test_data x cfg demod ('[' :: digits ++ ']' :: payload)).ret
        = x.pulse_demod_string payload r_dev ∧
      decode_calls (process_test_data x cfg demod ('[' :: digits ++ ']' :: payload)).trace
        = [(payload, r_dev)] := by
  have hs := strtol_well_formed digits payload hne hd
  have hfind : (demod.r_devs.find?
      (fun p => decide (p.protocol_num = digits_value digits))).isSome = true := by
    rw [List.find?_isSome]
    obtain ⟨p, hp, hpd⟩ := hact
    exact ⟨p, hp, by simp [hpd]⟩
  obtain ⟨r_dev, hr⟩ := Option.isSome_iff_exists.mp hfind
  refine ⟨r_dev, hr, ?_⟩
  rw [process_test_data_lookup x cfg demod _ (by simp) (by rw [hs]; rfl)]
  rw [hs]
  simp only [to_unsigned_of_lt _ h32, hr, List.tail_cons]
  simp [decode_calls_append, decode_calls_verbose_msg, decode_calls_scan, decode_calls]

/-- C1, at a concrete input: the line `[3]xy` with descriptors 1 and 3
active reaches descriptor 3 with payload `xy` and returns its result 302. -/
theorem process_test_data_well_formed_witness :
    digits_value ['3'] = 3 ∧
    ∃ r_dev,
      demo_demod.r_devs.find? (fun p => decide (p.protocol_num = digits_value ['3']))
        = some r_dev ∧
      (process_test_data demo_externals demo_cfg demo_demod ('[' :: ['3'] ++ ']' :: ['x', 'y'])).ret
        = demo_externals.pulse_demod_string ['x', 'y'] r_dev ∧
      decode_calls
          (process_test_data demo_externals demo_cfg demo_demod
            ('[' :: ['3'] ++ ']' :: ['x', 'y'])).trace
        = [(['x', 'y'], r_dev)] :=
  ⟨by decide,
    process_test_data_well_formed demo_externals demo_cfg demo_demod ['3'] ['x', 'y']
      (by decide) (by decide) (by decide) ⟨demo_dev3, by decide, by decide⟩⟩

/-- The decoder calls of `process_test_data`: none, or the single call on
the text behind `]` with the first entry numbered like the parsed value. -/
theorem decode_calls_process_test_data (x : Externals) (cfg : r_cfg_t) (demod : dm_state)
    (line : CString) :
    decode_calls (process_test_data x cfg demod line).trace =
      if line.head? = some '[' ∧ (strtol line.tail).2.head? = some ']' then
        match demod.r_devs.find?
            (fun p => decide (p.protocol_num = to_unsigned (strtol line.tail).1)) with
        | none => []
        | some r_dev => [((strtol line.tail).2.tail, r_dev)]
      else [] := by
  by_cases h : line.head? = some '['
  · by_cases he : (strtol line.tail).2.head? = some ']'
    · rw [process_test_data_lookup x cfg demod line h he, if_pos ⟨h, he⟩]
      cases demod.r_devs.find?
          (fun p => decide (p.protocol_num = to_unsigned (strtol line.tail).1)) <;>
        simp [decode_calls_append, decode_calls_verbose_msg, decode_calls_scan, decode_calls]
    · rw [process_test_data_bad_number x cfg demod line h he, if_neg (fun hh => he hh.2)]
      simp [decode_calls_append, decode_calls_verbose_msg, decode_calls]
  · rw [process_test_data_no_bracket x cfg demod line h, if_neg (fun hh => h hh.1)]
    simp [decode_calls_append, decode_calls_verbose_msg, decode_calls]

/-- The shape of a text on which `strtol` stops at a `]`: either the text
starts with `]` (no digits, value 0), or it is white space, an optional
sign and a non-empty run of digits, followed by the `]`. -/
theorem strtol_stops_at_bracket (t : CString) (h : (strtol t).2.head? = some ']') :
    ∃ ws sign digits,
      t = ws ++ sign ++ digits ++ ']' :: (strtol t).2.tail ∧
      (∀ c ∈ ws, isspace c = true) ∧
      (sign = [] ∨ sign = ['-'] ∨ sign = ['+']) ∧
      (∀ c ∈ digits, isdigit c = true) ∧
      (digits = [] → ws = [] ∧ sign = []) ∧
      (strtol t).1 =
        if sign = ['-'] then max (-(digits_value digits : Int)) LONG_MIN
        else min (digits_value digits : Int) LONG_MAX := by
  have hcons : ∀ l : CString, l.head? = some ']' → l = ']' :: l.tail := by
    intro l hl
    cases l with
    | nil => simp at hl
    | cons a l => simp at hl; simp [hl]
  by_cases hnil : (after_sign t).takeWhile isdigit = []
  · have hs : strtol t = (0, t) := by unfold strtol; simp [hnil]
    rw [hs] at h ⊢
    refine ⟨[], [], [], ?_, by simp, by simp, by simp, by simp, by simp [digits_value, LONG_MAX]⟩
    simpa using hcons t h
  · have hs : strtol t =
        (if has_minus t then max (-(digits_value ((after_sign t).takeWhile isdigit) : Int)) LONG_MIN
          else min (digits_value ((after_sign t).takeWhile isdigit) : Int) LONG_MAX,
          (after_sign t).dropWhile isdigit) := by
      unfold strtol; simp [hnil]
    rw [hs] at h ⊢
    simp only at h ⊢
    have h1 : t = t.takeWhile isspace ++ skip_space t :=
      (List.takeWhile_append_dropWhile isspace t).symm
    have h3 : after_sign t = (after_sign t).takeWhile isdigit ++ (after_sign t).dropWhile isdigit :=
      (List.takeWhile_append_dropWhile isdigit (after_sign t)).symm
    have h4 := hcons _ h
    have hws : ∀ c ∈ t.takeWhile isspace, isspace c = true :=
      fun c hc => List.mem_takeWhile_imp hc
    have hds : ∀ c ∈ (after_sign t).takeWhile isdigit, isdigit c = true :=
      fun c hc => List.mem_takeWhile_imp hc
    have key : ∀ sign : CString, skip_space t = sign ++ after_sign t →
        t = t.takeWhile isspace ++ sign ++ (after_sign t).takeWhile isdigit
              ++ ']' :: ((after_sign t).dropWhile isdigit).tail := by
      intro sign hsg
      calc t = t.takeWhile isspace ++ skip_space t := h1
        _ = t.takeWhile isspace ++ (sign ++ ((after_sign t).takeWhile isdigit
              ++ (after_sign t).dropWhile isdigit)) := by rw [← h3, ← hsg]
        _ = _ := by rw [h4]; simp
    cases hsk : skip_space t with
    | nil =>
      have has : after_sign t = [] := by simp [after_sign, hsk]
      rw [has] at hnil
      simp at hnil
    | cons a u =>
      by_cases ha : a = '-'
      · have has : after_sign t = u := by simp [after_sign, hsk, ha]
        have hm : has_minus t = true := by simp [has_minus, hsk, ha]
        refine ⟨t.takeWhile isspace, ['-'], (after_sign t).takeWhile isdigit,
          key ['-'] (by rw [hsk, has, ha]; rfl), hws, by simp, hds, fun hh => absurd hh hnil, ?_⟩
        simp [hm]
      · by_cases hb : a = '+'
        · have has : after_sign t = u := by simp [after_sign, hsk, hb]
          have hm : has_minus t = false := by simp [has_minus, hsk, hb]
          refine ⟨t.takeWhile isspace, ['+'], (after_sign t).takeWhile isdigit,
            key ['+'] (by rw [hsk, has, hb]; rfl), hws, by simp, hds, fun hh => absurd hh hnil, ?_⟩
          simp [hm]
        · have has : after_sign t = a :: u := by simp [after_sign, hsk, ha, hb]
          have hm : has_minus t = false := by simp [has_minus, hsk, ha]
          refine ⟨t.takeWhile isspace, [], (after_sign t).takeWhile isdigit,
            key [] (by rw [hsk, has]; rfl), hws, by simp, hds, fun hh => absurd hh hnil, ?_⟩
          simp [hm]

/-- C2 (as stated, refuted). The lines `[ 3]x`, `[+3]x` and `[4294967299]x`
are not of the form "`[`, one or more decimal digits of value 3, `]`" (the
first two are no plain decimal integer, the third has the value
4294967299), yet each of them reaches the decoder of descriptor 3. -/
theorem process_test_data_grammar_counterexample :
    plain_id "[ 3]x".toList = none ∧
    decode_calls (process_test_data demo_externals demo_cfg demo_demod "[ 3]x".toList).trace
      = [(['x'], demo_dev3)] ∧
    plain_id "[+3]x".toList = none ∧
    decode_calls (process_test_data demo_externals demo_cfg demo_demod "[+3]x".toList).trace
      = [(['x'], demo_dev3)] ∧
    plain_id "[4294967299]x".toList = some 4294967299 ∧
    decode_calls
        (process_test_data demo_externals demo_cfg demo_demod "[4294967299]x".toList).trace
      = [(['x'], demo_dev3)] ∧
    demo_dev3.protocol_num = 3 := by
  decide

/-- C2 (amended). A decoder is invoked only if the line is `[`, then
optional white space, an optional sign and decimal digits (white space and
sign only in front of at least one digit), then `]`, then the payload the
decoder receives; the invoked descriptor is an entry of the Activation Set
and its `protocol_num` is the value of that signed integer, clamped to the
range of `long` and converted to `unsigned` (0 when there is no digit). -/
theorem process_test_data_grammar (x : Externals) (cfg : r_cfg_t) (demod : dm_state)
    (line e : CString) (r_dev : r_device)
    (hcall : (e, r_dev) ∈ decode_calls (process_test_data x cfg demod line).trace) :
    (∃ ws sign digits,
      line = '[' :: (ws ++ sign ++ digits ++ ']' :: e) ∧
      (∀ c ∈ ws, isspace c = true) ∧
      (sign = [] ∨ sign = ['-'] ∨ sign = ['+']) ∧
      (∀ c ∈ digits, isdigit c = true) ∧
      (digits = [] → ws = [] ∧ sign = []) ∧
      r_dev.protocol_num =
        to_unsigned (if sign = ['-'] then max (-(digits_value digits : Int)) LONG_MIN
          else min (digits_value digits : Int) LONG_MAX)) ∧
    r_dev ∈ demod.r_devs := by
  rw [decode_calls_process_test_data] at hcall
  split at hcall
  · rename_i hb
    obtain ⟨h, he⟩ := hb
    split at hcall
    · simp at hcall
    · rename_i r hfind
      simp only [List.mem_singleton, Prod.mk.injEq] at hcall
      obtain ⟨rfl, rfl⟩ := hcall
      obtain ⟨ws, sign, digits, ht, hws, hsign, hds, hnil, hval⟩ :=
        strtol_stops_at_bracket line.tail he
      have hp := List.find?_some hfind
      have hline : line = '[' :: line.tail := by
        cases line with
        | nil => simp at h
        | cons a l => simp at h; simp [h]
      refine ⟨⟨ws, sign, digits, ?_, hws, hsign, hds, hnil, ?_⟩, List.mem_of_find?_eq_some hfind⟩
      · rw [← ht]; exact hline
      · rw [← hval]; simpa using hp
  · simp at hcall

/-- C2 (amended), at a concrete input: the decoder call made for the line
`[ +3]x`. -/
theorem process_test_data_grammar_witness :
    (['x'], demo_dev3)
        ∈ decode_calls (process_test_data demo_externals demo_cfg demo_demod "[ +3]x".toList).trace ∧
    ((∃ ws sign digits,
      "[ +3]x".toList = '[' :: (ws ++ sign ++ digits ++ ']' :: ['x']) ∧
      (∀ c ∈ ws, isspace c = true) ∧
      (sign = [] ∨ sign = ['-'] ∨ sign = ['+']) ∧
      (∀ c ∈ digits, isdigit c = true) ∧
      (digits = [] → ws = [] ∧ sign = []) ∧
      demo_dev3.protocol_num =
        to_unsigned (if sign = ['-'] then max (-(digits_value digits : Int)) LONG_MIN
          else min (digits_value digits : Int) LONG_MAX)) ∧
    demo_dev3 ∈ demo_demod.r_devs) :=
  ⟨by decide,
    process_test_data_grammar demo_externals demo_cfg demo_demod "[ +3]x".toList ['x'] demo_dev3
      (by decide)⟩

/-- C3. A line whose first character is not `[` (the empty line included)
returns -1 with no decoder call and no read of the Activation Set; the run
is the same whatever the Activation Set holds. -/
theorem process_test_data_missing_bracket (x : Externals) (cfg : r_cfg_t) (demod : dm_state)
    (line : CString) (h : line.head? ≠ some '[') :
    (process_test_data x cfg demod line).ret = -1 ∧
    decode_calls (process_test_data x cfg demod line).trace = [] ∧
    r_devs_reads (process_test_data x cfg demod line).trace = [] ∧
    process_test_data x cfg demod line = process_test_data x cfg ⟨[]⟩ line := by
  rw [process_test_data_no_bracket x cfg demod line h,
    process_test_data_no_bracket x cfg ⟨[]⟩ line h]
  simp [decode_calls_append, decode_calls_verbose_msg, decode_calls,
    r_devs_reads_append, r_devs_reads_verbose_msg, r_devs_reads]

/-- C3, at concrete inputs: the empty line and the line `3]x`. -/
theorem process_test_data_missing_bracket_witness :
    ((process_test_data demo_externals demo_cfg demo_demod []).ret = -1 ∧
      decode_calls (process_test_data demo_externals demo_cfg demo_demod []).trace = [] ∧
      r_devs_reads (process_test_data demo_externals demo_cfg demo_demod []).trace = [] ∧
      process_test_data demo_externals demo_cfg demo_demod []
        = process_test_data demo_externals demo_cfg ⟨[]⟩ []) ∧
    ((process_test_data demo_externals demo_cfg demo_demod "3]x".toList).ret = -1 ∧
      decode_calls (process_test_data demo_externals demo_cfg demo_demod "3]x".toList).trace = [] ∧
      r_devs_reads (process_test_data demo_externals demo_cfg demo_demod "3]x".toList).trace = [] ∧
      process_test_data demo_externals demo_cfg demo_demod "3]x".toList
        = process_test_data demo_externals demo_cfg ⟨[]⟩ "3]x".toList) :=
  ⟨process_test_data_missing_bracket demo_externals demo_cfg demo_demod [] (by decide),
    process_test_data_missing_bracket demo_externals demo_cfg demo_demod "3]x".toList
      (by decide)⟩

/-- C4. A line that begins with `[` and in which `strtol`, applied to the
text behind `[`, does not stop at a `]` returns the parse error -1 with no
decoder call and no read of the Activation Set, for every Activation Set. -/
theorem process_test_data_parse_error (x : Externals) (cfg : r_cfg_t) (demod : dm_state)
    (line : CString) (h : line.head? = some '[')
    (he : (strtol line.tail).2.head? ≠ some ']') :
    (process_test_data x cfg demod line).ret = -1 ∧
    decode_calls (process_test_data x cfg demod line).trace = [] ∧
    r_devs_reads (process_test_data x cfg demod line).trace = [] ∧
    Event.stderr (Diag.bad_protocol_number (line.take 5)) ∈ (process_test_data x cfg demod line).trace := by
  rw [process_test_data_bad_number x cfg demod line h he]
  simp [decode_calls_append, decode_calls_verbose_msg, decode_calls,
    r_devs_reads_append, r_devs_reads_verbose_msg, r_devs_reads]

/-- C4, at concrete inputs: `[abc]x` (no digits) and `[3xyz` (no closing
bracket, with descriptor 3 active). -/
theorem process_test_data_parse_error_witness :
    ((strtol "[abc]x".toList.tail).2.head? = some 'a' ∧
      (process_test_data demo_externals demo_cfg demo_demod "[abc]x".toList).ret = -1 ∧
      decode_calls (process_test_data demo_externals demo_cfg demo_demod "[abc]x".toList).trace
        = [] ∧
      r_devs_reads (process_test_data demo_externals demo_cfg demo_demod "[abc]x".toList).trace
        = [] ∧
      Event.stderr (Diag.bad_protocol_number ("[abc]x".toList.take 5))
        ∈ (process_test_data demo_externals demo_cfg demo_demod "[abc]x".toList).trace) ∧
    ((strtol "[3xyz".toList.tail).2.head? = some 'x' ∧
      (process_test_data demo_externals demo_cfg demo_demod "[3xyz".toList).ret = -1 ∧
      decode_calls (process_test_data demo_externals demo_cfg demo_demod "[3xyz".toList).trace
        = [] ∧
      r_devs_reads (process_test_data demo_externals demo_cfg demo_demod "[3xyz".toList).trace
        = [] ∧
      Event.stderr (Diag.bad_protocol_number ("[3xyz".toList.take 5))
        ∈ (process_test_data demo_externals demo_cfg demo_demod "[3xyz".toList).trace) :=
  ⟨⟨by decide,
      process_test_data_parse_error demo_externals demo_cfg demo_demod "[abc]x".toList
        (by decide) (by decide)⟩,
    ⟨by decide,
      process_test_data_parse_error demo_externals demo_cfg demo_demod "[3xyz".toList
        (by decide) (by decide)⟩⟩

/-- C5 (as stated, refuted). The digits of the line `[4294967297]x` have
the value 4294967297 and no active descriptor has that number, yet the
result is not -1: the decoder of descriptor 1 is called and its result 101
is returned. -/
theorem process_test_data_unknown_protocol_counterexample :
    digits_value "4294967297".toList = 4294967297 ∧
    (∀ p ∈ demo_demod.r_devs, p.protocol_num ≠ 4294967297) ∧
    (process_test_data demo_externals demo_cfg demo_demod "[4294967297]x".toList).ret = 101 ∧
    decode_calls
        (process_test_data demo_externals demo_cfg demo_demod "[4294967297]x".toList).trace
      = [(['x'], demo_dev1)] := by
  decide

/-- C5 (amended). For a line `[digits]payload` whose value `d` is below
`2^32` and an Activation Set without a descriptor numbered `d` (the empty
set, or `d = 0` with 1-based numbers), the result is -1, the diagnostic
names `d` as unknown protocol number, and no decoder is called. -/
theorem process_test_data_unknown_protocol (x : Externals) (cfg : r_cfg_t) (demod : dm_state)
    (digits payload : CString) (hne : digits ≠ [])
    (hd : ∀ c ∈ digits, isdigit c = true) (h32 : digits_value digits < 2 ^ 32)
    (hnone : ∀ p ∈ demod.r_devs, p.protocol_num ≠ digits_value digits) :
    (process_test_data x cfg demod ('[' :: digits ++ ']' :: payload)).ret = -1 ∧
    decode_calls (process_test_data x cfg demod ('[' :: digits ++ ']' :: payload)).trace = [] ∧
    Event.stderr (Diag.unknown_protocol_number (digits_value digits))
      ∈ (process_test_data x cfg demod ('[' :: digits ++ ']' :: payload)).trace := by
  have hs := strtol_well_formed digits payload hne hd
  have hfind : demod.r_devs.find?
      (fun p => decide (p.protocol_num = digits_value digits)) = none := by
    rw [List.find?_eq_none]
    intro p hp
    simpa using hnone p hp
  rw [process_test_data_lookup x cfg demod _ (by simp) (by rw [hs]; rfl)]
  rw [hs]
  simp only [to_unsigned_of_lt _ h32, hfind]
  simp [decode_calls_append, decode_calls_verbose_msg, decode_calls_scan, decode_calls]

/-- C5 (amended), at concrete inputs: `[2]x` with descriptors 1 and 3
active, and `[0]x` with the same set. -/
theorem process_test_data_unknown_protocol_witness :
    ((∀ p ∈ demo_demod.r_devs, p.protocol_num ≠ digits_value ['2']) ∧
      (process_test_data demo_externals demo_cfg demo_demod ('[' :: ['2'] ++ ']' :: ['x'])).ret
        = -1 ∧
      decode_calls
          (process_test_data demo_externals demo_cfg demo_demod ('[' :: ['2'] ++ ']' :: ['x'])).trace
        = [] ∧
      Event.stderr (Diag.unknown_protocol_number (digits_value ['2']))
        ∈ (process_test_data demo_externals demo_cfg demo_demod
            ('[' :: ['2'] ++ ']' :: ['x'])).trace) ∧
    ((process_test_data demo_externals demo_cfg demo_demod ('[' :: ['0'] ++ ']' :: ['x'])).ret
        = -1 ∧
      decode_calls
          (process_test_data demo_externals demo_cfg demo_demod ('[' :: ['0'] ++ ']' :: ['x'])).trace
        = [] ∧
      Event.stderr (Diag.unknown_protocol_number (digits_value ['0']))
        ∈ (process_test_data demo_externals demo_cfg demo_demod
            ('[' :: ['0'] ++ ']' :: ['x'])).trace) :=
  ⟨⟨by decide,
      process_test_data_unknown_protocol demo_externals demo_cfg demo_demod ['2'] ['x']
        (by decide) (by decide) (by decide) (by decide)⟩,
    process_test_data_unknown_protocol demo_externals demo_cfg demo_demod ['0'] ['x']
      (by decide) (by decide) (by decide) (by decide)⟩

/-! ## Lemmas: `int` arithmetic and `atoi` -/

theorem wrap32_of_range (v : Int) (h1 : -2 ^ 31 ≤ v) (h2 : v < 2 ^ 31) : wrap32 v = v := by
  unfold wrap32; omega

theorem wrap32_range (v : Int) : -2 ^ 31 ≤ wrap32 v ∧ wrap32 v < 2 ^ 31 := by
  unfold wrap32; omega

/-- The result of `atoi` is an `int`. -/
theorem atoi_range (a : CString) : -2 ^ 31 ≤ atoi a ∧ atoi a < 2 ^ 31 :=
  wrap32_range _

/-- A text without a digit behind white space and sign reads as 0. -/
theorem atoi_no_digit (a : CString) (h : (after_sign a).takeWhile isdigit = []) :
    atoi a = 0 := by
  unfold atoi strtol
  simp [h, wrap32]

/-! ## Lemmas: sequencing of runs -/

@[simp] theorem Run.skip_bind (cfg : r_cfg_t) (f : r_cfg_t → Run) :
    (Run.skip cfg).bind f = f cfg := by
  simp [Run.skip, Run.bind]

@[simp] theorem Run.bind_none (cfg : r_cfg_t) (t : List Event) (f : r_cfg_t → Run) :
    (Run.mk cfg t none).bind f = ⟨(f cfg).cfg, t ++ (f cfg).trace, (f cfg).stop⟩ := by
  simp [Run.bind]

@[simp] theorem Run.bind_some (cfg : r_cfg_t) (t : List Event) (st : Stop)
    (f : r_cfg_t → Run) :
    (Run.mk cfg t (some st)).bind f = ⟨cfg, t, some st⟩ := by
  simp [Run.bind]

/-! ## Lemmas: the steps of `case 'R'` -/

theorem parse_conf_option_R (x : Externals) (cfg : r_cfg_t) (arg : Option CString) :
    parse_conf_option x cfg 'R' arg = option_R x cfg arg := by
  unfold parse_conf_option
  simp

/-- The range check lets `n` pass when `-N ≤ n ≤ N`, the most negative
`int` apart. -/
theorem R_range_check_pass (cfg : r_cfg_t) (n : Int) (h1 : n ≤ cfg.num_r_devices)
    (h2 : -(cfg.num_r_devices : Int) ≤ n) (hlo : -2 ^ 31 < n) (hhi : n < 2 ^ 31) :
    R_range_check cfg n = Run.skip cfg := by
  have hw : wrap32 (-n) = -n := wrap32_of_range _ (by omega) (by omega)
  unfold R_range_check
  rw [hw, if_neg]
  omega

/-- The range check is fatal for `|n| > N`, the most negative `int` apart. -/
theorem R_range_check_fatal (cfg : r_cfg_t) (n : Int) (hlo : -2 ^ 31 < n) (hhi : n < 2 ^ 31)
    (h : n.natAbs > cfg.num_r_devices) :
    R_range_check cfg n
      = ⟨cfg, [Event.stderr (Diag.protocol_number_too_large n)], some (Stop.exit 1)⟩ := by
  have hw : wrap32 (-n) = -n := wrap32_of_range _ (by omega) (by omega)
  unfold R_range_check
  rw [hw, if_pos]
  omega

theorem R_index_pos (m : Nat) (h1 : 1 ≤ m) : R_index (m : Int) = ((m - 1 : Nat) : Int) := by
  unfold R_index
  rw [if_pos (by omega)]
  omega

theorem R_index_neg (m : Nat) (h1 : 1 ≤ m) (h2 : m < 2 ^ 31) :
    R_index (-(m : Int)) = ((m - 1 : Nat) : Int) := by
  have ha : wrap32 (-(-(m : Int))) = m := by
    rw [wrap32_of_range _ (by omega) (by omega)]
    omega
  have hb : wrap32 ((m : Int) - 1) = (m : Int) - 1 := wrap32_of_range _ (by omega) (by omega)
  unfold R_index
  rw [if_neg (by omega), ha, hb]
  omega

theorem devices_at_natCast (cfg : r_cfg_t) (i : Nat) :
    devices_at cfg (i : Int) = cfg.devices.get? i := by
  simp [devices_at]

/-- The tier check on a descriptor that the table holds. -/
theorem R_tier_check_read (cfg : r_cfg_t) (n : Int) (r_dev : r_device) (hn : n ≠ 0)
    (hdev : devices_at cfg (R_index n) = some r_dev) :
    R_tier_check cfg n =
      if r_dev.disabled > 2 then
        ⟨cfg, [Event.devices_read (R_index n), Event.stderr (Diag.protocol_number_invalid n)],
          some (Stop.exit 1)⟩
      else
        ⟨cfg, [Event.devices_read (R_index n)], none⟩ := by
  unfold R_tier_check
  rw [if_pos (by omega), hdev]

/-! ## Lemmas: the registry operations -/

/-- The Activation Set after `register_protocol`. -/
theorem register_protocol_r_devs (cfg : r_cfg_t) (r_dev : r_device) (arg : Option CString) :
    (register_protocol cfg r_dev arg).demod.r_devs
      = cfg.demod.r_devs.filter (fun p => decide (p.protocol_num ≠ r_dev.protocol_num))
          ++ [{ r_dev with param := arg }] := rfl

theorem foldl_register_eq (lvl : Nat) (l : List r_device) (c : r_cfg_t) :
    l.foldl (fun c r_dev =>
        if lvl ≠ 0 ∨ r_dev.disabled = 0 then register_protocol c r_dev none else c) c
      = { c with demod :=
            { r_devs :=
                (l.filter fun r_dev => decide (lvl ≠ 0 ∨ r_dev.disabled = 0)).foldl
                  (fun rs r_dev =>
                    rs.filter (fun p => decide (p.protocol_num ≠ r_dev.protocol_num))
                      ++ [{ r_dev with param := none }])
                  c.demod.r_devs } } := by
  induction l generalizing c with
  | nil => simp
  | cons d l ih =>
    rw [List.foldl_cons, ih]
    by_cases h : lvl ≠ 0 ∨ d.disabled = 0
    · simp [h, register_protocol]
    · simp [h]

/-- The call `register_all_protocols` changes the Activation Set only: it
pushes, in table order, the descriptors that the level selects. -/
theorem register_all_protocols_eq (cfg : r_cfg_t) (lvl : Nat) :
    register_all_protocols cfg lvl
      = { cfg with demod :=
            { r_devs :=
                (cfg.devices.filter fun r_dev => decide (lvl ≠ 0 ∨ r_dev.disabled = 0)).foldl
                  (fun rs r_dev =>
                    rs.filter (fun p => decide (p.protocol_num ≠ r_dev.protocol_num))
                      ++ [{ r_dev with param := none }])
                  cfg.demod.r_devs } } := by
  unfold register_all_protocols
  exact foldl_register_eq lvl cfg.devices cfg

/-- Pushing descriptors with distinct ids one by one: the entries with one
of these ids are released and the descriptors follow in their order. -/
theorem foldl_push_nodup (ds : List r_device) :
    ∀ rs : List r_device, (ds.map fun d => d.protocol_num).Nodup →
      ds.foldl
        (fun rs r_dev =>
          rs.filter (fun p => decide (p.protocol_num ≠ r_dev.protocol_num))
            ++ [{ r_dev with param := none }]) rs
      = rs.filter (fun p => decide (p.protocol_num ∉ ds.map fun d => d.protocol_num))
          ++ ds.map fun d => { d with param := none } := by
  induction ds with
  | nil =>
    intro rs _
    simp
  | cons d ds ih =>
    intro rs hnd
    rw [List.map_cons, List.nodup_cons] at hnd
    obtain ⟨hd, hnd⟩ := hnd
    rw [List.foldl_cons, ih _ hnd, List.filter_append, List.filter_filter]
    have h1 : List.filter (fun p => decide (p.protocol_num ∉ ds.map fun d => d.protocol_num))
        [({ d with param := none } : r_device)] = [{ d with param := none }] := by
      have hd2 : ∀ y ∈ ds, ¬ y.protocol_num = d.protocol_num :=
        fun y hy h => hd (List.mem_map.mpr ⟨y, hy, h⟩)
      simpa using hd2
    have h2 : List.filter (fun a => decide (a.protocol_num ∉ ds.map fun d => d.protocol_num)
          && decide (a.protocol_num ≠ d.protocol_num)) rs
        = List.filter (fun p => decide (p.protocol_num ∉ (d :: ds).map fun d => d.protocol_num))
            rs := by
      apply List.filter_congr
      intro a _
      simp only [List.map_cons, List.mem_cons, not_or, Bool.decide_and]
      exact Bool.and_comm _ _
    rw [h1, h2]
    simp

/-- The ids of the descriptors that `register_all_protocols` selects are
distinct in a numbered table. -/
theorem selected_ids_nodup (cfg : r_cfg_t) (hok : table_ok cfg) (q : r_device → Bool) :
    ((cfg.devices.filter q).map fun d => d.protocol_num).Nodup := by
  obtain ⟨_, _, hmap⟩ := hok
  have hsub : ((cfg.devices.filter q).map fun d => d.protocol_num).Sublist
      (cfg.devices.map fun d => d.protocol_num) :=
    List.Sublist.map _ (List.filter_sublist _)
  rw [hmap] at hsub
  exact List.Nodup.sublist hsub (List.nodup_range' 1 cfg.devices.length)

/-- On a numbered table `register_all_protocols` releases the entries of
the selected descriptors and pushes these descriptors in table order. -/
theorem register_all_protocols_r_devs (cfg : r_cfg_t) (hok : table_ok cfg) (lvl : Nat) :
    (register_all_protocols cfg lvl).demod.r_devs
      = cfg.demod.r_devs.filter (fun p => decide (p.protocol_num ∉
            (cfg.devices.filter fun r_dev => decide (lvl ≠ 0 ∨ r_dev.disabled = 0)).map
              fun d => d.protocol_num))
          ++ (cfg.devices.filter fun r_dev => decide (lvl ≠ 0 ∨ r_dev.disabled = 0)).map
              fun d => { d with param := none } := by
  rw [register_all_protocols_eq]
  exact foldl_push_nodup _ _ (selected_ids_nodup cfg hok _)

/-- On a numbered table and an empty Activation Set, the default
registration yields the tier-0 descriptors in table order. -/
theorem register_all_defaults_fresh (cfg : r_cfg_t) (hok : table_ok cfg)
    (hempty : cfg.demod.r_devs = []) :
    (register_all_protocols cfg 0).demod.r_devs
      = (cfg.devices.filter fun d => decide (d.disabled = 0)).map
          fun d => { d with param := none } := by
  rw [register_all_protocols_r_devs cfg hok 0, hempty]
  simp

/-- With `no_default_devices` set the finalisation step changes nothing. -/
theorem main_finalize_suppressed (cfg : r_cfg_t) (h : cfg.no_default_devices ≠ 0) :
    main_finalize cfg = ⟨cfg, [], none⟩ := by
  unfold main_finalize update_protocols
  rw [if_neg h]

/-- The configuration that `R_defaults` leaves has the same table. -/
theorem R_defaults_devices (cfg : r_cfg_t) (n : Int) :
    (R_defaults cfg n).cfg.devices = cfg.devices ∧ (R_defaults cfg n).stop = none ∧
      (R_defaults cfg n).cfg.no_default_devices = 1 := by
  unfold R_defaults
  split
  · simp [register_all_protocols_eq]
  · simp

/-- A valid positive number: the run of `-R n`. -/
theorem option_R_pos_ok (x : Externals) (cfg : r_cfg_t) (a : CString) (m : Nat)
    (r_dev : r_device) (h1 : 1 ≤ m) (h2 : m ≤ cfg.num_r_devices) (ha : atoi a = (m : Int))
    (hdev : cfg.devices.get? (m - 1) = some r_dev) (ht : r_dev.disabled ≤ 2) :
    parse_conf_option x cfg 'R' (some a)
      = ⟨register_protocol { cfg with no_default_devices := 1 } r_dev (x.arg_param (some a)),
          [Event.devices_read ((m - 1 : Nat) : Int), Event.no_default_devices_set,
            Event.devices_read ((m - 1 : Nat) : Int),
            Event.register_protocol r_dev (x.arg_param (some a))], none⟩ := by
  have hra := atoi_range a
  rw [ha] at hra
  have hpa : R_range_check cfg (m : Int) = Run.skip cfg :=
    R_range_check_pass cfg _ (by omega) (by omega) (by omega) (by omega)
  have hda : devices_at cfg (R_index (m : Int)) = some r_dev := by
    rw [R_index_pos m h1, devices_at_natCast, hdev]
  have hta := R_tier_check_read cfg (m : Int) r_dev (by omega) hda
  rw [R_index_pos m h1, if_neg (by omega)] at hta
  have hdef : R_defaults cfg (m : Int)
      = ⟨{ cfg with no_default_devices := 1 }, [Event.no_default_devices_set], none⟩ := by
    unfold R_defaults
    rw [if_neg (by omega)]
  have e1 : (m : Int) - 1 = ((m - 1 : Nat) : Int) := by omega
  have hap : R_apply x { cfg with no_default_devices := 1 } (m : Int) a
      = ⟨register_protocol { cfg with no_default_devices := 1 } r_dev (x.arg_param (some a)),
          [Event.devices_read ((m - 1 : Nat) : Int),
            Event.register_protocol r_dev (x.arg_param (some a))], none⟩ := by
    unfold R_apply
    rw [if_pos (by omega), e1, devices_at_natCast]
    simp only [hdev]
  rw [parse_conf_option_R]
  unfold option_R
  simp only [ha, hpa, Run.skip_bind, hta, Run.bind_none, hdef, hap, List.cons_append,
    List.nil_append]

/-- A valid negative number: the run of `-R -n`. -/
theorem option_R_neg_ok (x : Externals) (cfg : r_cfg_t) (b : CString) (m : Nat)
    (r_dev : r_device) (h1 : 1 ≤ m) (h2 : m ≤ cfg.num_r_devices) (hm : m < 2 ^ 31)
    (hb : atoi b = -(m : Int))
    (hdev : cfg.devices.get? (m - 1) = some r_dev) (ht : r_dev.disabled ≤ 2) :
    parse_conf_option x cfg 'R' (some b)
      = ⟨unregister_protocol (R_defaults cfg (-(m : Int))).cfg r_dev,
          Event.devices_read ((m - 1 : Nat) : Int) :: (R_defaults cfg (-(m : Int))).trace
            ++ [Event.devices_read ((m - 1 : Nat) : Int), Event.unregister_protocol r_dev],
          none⟩ := by
  have hpb : R_range_check cfg (-(m : Int)) = Run.skip cfg :=
    R_range_check_pass cfg _ (by omega) (by omega) (by omega) (by omega)
  have hdb : devices_at cfg (R_index (-(m : Int))) = some r_dev := by
    rw [R_index_neg m h1 hm, devices_at_natCast, hdev]
  have htb := R_tier_check_read cfg (-(m : Int)) r_dev (by omega) hdb
  rw [R_index_neg m h1 hm, if_neg (by omega)] at htb
  obtain ⟨hdd, hds, _⟩ := R_defaults_devices cfg (-(m : Int))
  have e1 : wrap32 (-(-(m : Int))) = m := by
    rw [wrap32_of_range _ (by omega) (by omega)]; omega
  have e2 : wrap32 ((m : Int) - 1) = ((m - 1 : Nat) : Int) := by
    rw [wrap32_of_range _ (by omega) (by omega)]; omega
  have hap : R_apply x (R_defaults cfg (-(m : Int))).cfg (-(m : Int)) b
      = ⟨unregister_protocol (R_defaults cfg (-(m : Int))).cfg r_dev,
          [Event.devices_read ((m - 1 : Nat) : Int), Event.unregister_protocol r_dev],
          none⟩ := by
    unfold R_apply
    rw [if_neg (by omega), if_pos (by omega), e1, e2, devices_at_natCast, hdd]
    simp only [hdev]
  rw [parse_conf_option_R]
  unfold option_R
  simp only [hb, hpb, Run.skip_bind, htb, Run.bind_none]
  simp only [Run.bind, hds, hap, List.cons_append, List.nil_append, List.append_assoc]

/-- For `|n| > N` the handler exits with status 1 at the range check, with
the configuration untouched and nothing but the diagnostic in the trace,
provided `n` is not the most negative `int`. -/
theorem option_R_out_of_range (x : Externals) (cfg : r_cfg_t) (a : CString)
    (hmin : atoi a ≠ -2 ^ 31) (h : (atoi a).natAbs > cfg.num_r_devices) :
    parse_conf_option x cfg 'R' (some a)
      = ⟨cfg, [Event.stderr (Diag.protocol_number_too_large (atoi a))], some (Stop.exit 1)⟩ := by
  have hr := atoi_range a
  rw [parse_conf_option_R]
  unfold option_R
  simp only []
  rw [R_range_check_fatal cfg (atoi a) (by omega) hr.2 h]
  simp

/-- For the most negative `int` the range check does not fire: `-n` wraps
around to `n` itself, and the tier check reads `devices[2147483647]`. -/
theorem option_R_int_min (x : Externals) (cfg : r_cfg_t) (a : CString)
    (hok : table_ok cfg) (h : atoi a = -2 ^ 31) :
    parse_conf_option x cfg 'R' (some a)
      = ⟨cfg, [Event.devices_read 2147483647], some (Stop.out_of_bounds 2147483647)⟩ := by
  obtain ⟨hlen, hN, _⟩ := hok
  have hidx : R_index (-2 ^ 31) = 2147483647 := by decide
  have hnone : devices_at cfg 2147483647 = none := by
    unfold devices_at
    rw [if_pos (by omega)]
    rw [List.get?_eq_none]
    have : (2147483647 : Int).toNat = 2147483647 := by decide
    omega
  have hrange : R_range_check cfg (-2 ^ 31) = Run.skip cfg := by
    have hw : wrap32 (-(-2 ^ 31)) = -2 ^ 31 := by decide
    unfold R_range_check
    rw [hw, if_neg]
    omega
  have htier : R_tier_check cfg (-2 ^ 31)
      = ⟨cfg, [Event.devices_read 2147483647], some (Stop.out_of_bounds 2147483647)⟩ := by
    unfold R_tier_check
    rw [if_pos (by omega), hidx, hnone]
  rw [parse_conf_option_R]
  unfold option_R
  simp only []
  rw [h, hrange, Run.skip_bind, htier]
  simp

/-! ## Claims about `case 'R'` of `parse_conf_option` -/

/-- C6 (the code at the failing input). With a table of four descriptors
the argument `-2147483648` is out of range (`|n| > N`), but the handler does
not exit at the range check: it goes on to the tier check, which reads
`devices[2147483647]`, outside the table. -/
theorem option_R_int_min_not_fatal :
    atoi "-2147483648".toList = -2147483648 ∧
    (atoi "-2147483648".toList).natAbs > demo_cfg.num_r_devices ∧
    R_range_check demo_cfg (atoi "-2147483648".toList) = Run.skip demo_cfg ∧
    parse_conf_option demo_externals demo_cfg 'R' (some "-2147483648".toList)
      = ⟨demo_cfg, [Event.devices_read 2147483647], some (Stop.out_of_bounds 2147483647)⟩ := by
  decide

/-- C7. For `1 ≤ m ≤ N`, with `a` read as `m` and `b` read as `-m`: when
descriptor `m` (table index `m - 1`) has a tier above 2, both `-R a` and
`-R b` exit with status 1 right after the tier check, with the
configuration untouched (`no_default_devices` not set, nothing registered,
unregistered or cleared); when its tier is at most 2, neither of them stops. -/
theorem option_R_invalid_tier (x : Externals) (cfg : r_cfg_t) (a b : CString) (m : Nat)
    (r_dev : r_device) (h1 : 1 ≤ m) (h2 : m ≤ cfg.num_r_devices)
    (ha : atoi a = (m : Int)) (hb : atoi b = -(m : Int))
    (hdev : cfg.devices.get? (m - 1) = some r_dev) :
    (r_dev.disabled > 2 →
      parse_conf_option x cfg 'R' (some a)
        = ⟨cfg, [Event.devices_read ((m - 1 : Nat) : Int),
                  Event.stderr (Diag.protocol_number_invalid m)], some (Stop.exit 1)⟩ ∧
      parse_conf_option x cfg 'R' (some b)
        = ⟨cfg, [Event.devices_read ((m - 1 : Nat) : Int),
                  Event.stderr (Diag.protocol_number_invalid (-(m : Int)))],
            some (Stop.exit 1)⟩) ∧
    (r_dev.disabled ≤ 2 →
      (parse_conf_option x cfg 'R' (some a)).stop = none ∧
      (parse_conf_option x cfg 'R' (some b)).stop = none) := by
  have hra := atoi_range a
  have hrb := atoi_range b
  rw [ha] at hra
  rw [hb] at hrb
  have hm : m < 2 ^ 31 := by omega
  have hpa : R_range_check cfg (m : Int) = Run.skip cfg :=
    R_range_check_pass cfg _ (by omega) (by omega) (by omega) (by omega)
  have hpb : R_range_check cfg (-(m : Int)) = Run.skip cfg :=
    R_range_check_pass cfg _ (by omega) (by omega) (by omega) (by omega)
  have hda : devices_at cfg (R_index (m : Int)) = some r_dev := by
    rw [R_index_pos m h1, devices_at_natCast, hdev]
  have hdb : devices_at cfg (R_index (-(m : Int))) = some r_dev := by
    rw [R_index_neg m h1 hm, devices_at_natCast, hdev]
  have hta := R_tier_check_read cfg (m : Int) r_dev (by omega) hda
  have htb := R_tier_check_read cfg (-(m : Int)) r_dev (by omega) hdb
  rw [R_index_pos m h1] at hta
  rw [R_index_neg m h1 hm] at htb
  rw [parse_conf_option_R, parse_conf_option_R]
  constructor
  · intro ht
    unfold option_R
    simp only [ha, hb, hpa, hpb, Run.skip_bind, hta, htb]
    simp [ht]
  · intro ht
    rw [← parse_conf_option_R, ← parse_conf_option_R,
      option_R_pos_ok x cfg a m r_dev h1 h2 ha hdev ht,
      option_R_neg_ok x cfg b m r_dev h1 h2 hm hb hdev ht]
    exact ⟨rfl, rfl⟩

/-- C7, at concrete inputs: descriptor 4 of the sample table has tier 3, so
`-R 4` and `-R -4` are fatal; descriptor 2 has tier 1, so `-R 2` and
`-R -2` are not. -/
theorem option_R_invalid_tier_witness :
    (demo_dev4.disabled > 2 ∧
      parse_conf_option demo_externals demo_cfg 'R' (some "4".toList)
        = ⟨demo_cfg, [Event.devices_read ((4 - 1 : Nat) : Int),
                  Event.stderr (Diag.protocol_number_invalid (4 : Nat))], some (Stop.exit 1)⟩ ∧
      parse_conf_option demo_externals demo_cfg 'R' (some "-4".toList)
        = ⟨demo_cfg, [Event.devices_read ((4 - 1 : Nat) : Int),
                  Event.stderr (Diag.protocol_number_invalid (-((4 : Nat) : Int)))],
            some (Stop.exit 1)⟩) ∧
    (demo_dev2.disabled ≤ 2 ∧
      (parse_conf_option demo_externals demo_cfg 'R' (some "2".toList)).stop = none ∧
      (parse_conf_option demo_externals demo_cfg 'R' (some "-2".toList)).stop = none) :=
  ⟨⟨by decide,
      (option_R_invalid_tier demo_externals demo_cfg "4".toList "-4".toList 4 demo_dev4
        (by decide) (by decide) (by decide) (by decide) (by decide)).1 (by decide)⟩,
    ⟨by decide,
      (option_R_invalid_tier demo_externals demo_cfg "2".toList "-2".toList 2 demo_dev2
        (by decide) (by decide) (by decide) (by decide) (by decide)).2 (by decide)⟩⟩

/-- C8 (as stated, refuted). The arguments `abc` and the empty string do
not begin with an integer, yet `-R abc` and `-R ""` are not fatal: the
handler returns, and the Activation Set, which held descriptors 1 and 3, is
empty afterwards. -/
theorem option_R_malformed_counterexample :
    demo_cfg_active.demod.r_devs = [demo_dev1, demo_dev3] ∧
    (after_sign "abc".toList).takeWhile isdigit = [] ∧
    (parse_conf_option demo_externals demo_cfg_active 'R' (some "abc".toList)).stop = none ∧
    (parse_conf_option demo_externals demo_cfg_active 'R' (some "abc".toList)).cfg.demod.r_devs
      = [] ∧
    (after_sign []).takeWhile isdigit = [] ∧
    (parse_conf_option demo_externals demo_cfg_active 'R' (some [])).stop = none ∧
    (parse_conf_option demo_externals demo_cfg_active 'R' (some [])).cfg.demod.r_devs = [] := by
  decide

/-- C8 (amended). Without an argument the handler exits with status 1 and
leaves the configuration untouched.  An argument that does not begin with
an integer (no digit behind optional white space and sign) is read by
`atoi` as 0 and handled as `-R 0`: the handler returns, sets
`no_default_devices` and clears the Activation Set. -/
theorem option_R_missing_or_malformed (x : Externals) (cfg : r_cfg_t) :
    parse_conf_option x cfg 'R' none
      = ⟨cfg, [Event.stderr Diag.missing_argument_for_R], some (Stop.exit 1)⟩ ∧
    ∀ a : CString, (after_sign a).takeWhile isdigit = [] →
      atoi a = 0 ∧
      parse_conf_option x cfg 'R' (some a)
        = ⟨list_clear { cfg with no_default_devices := 1 },
            [Event.no_default_devices_set, Event.stderr Diag.disabling_all_decoders,
              Event.list_clear], none⟩ ∧
      (parse_conf_option x cfg 'R' (some a)).cfg.demod.r_devs = [] ∧
      (parse_conf_option x cfg 'R' (some a)).cfg.no_default_devices = 1 := by
  constructor
  · rw [parse_conf_option_R]
    rfl
  · intro a ha
    have h0 := atoi_no_digit a ha
    have hrun : parse_conf_option x cfg 'R' (some a)
        = ⟨list_clear { cfg with no_default_devices := 1 },
            [Event.no_default_devices_set, Event.stderr Diag.disabling_all_decoders,
              Event.list_clear], none⟩ := by
      rw [parse_conf_option_R]
      unfold option_R
      simp only [h0]
      have hr : R_range_check cfg 0 = Run.skip cfg := by
        unfold R_range_check
        rw [if_neg]
        have : wrap32 (-0) = 0 := by decide
        rw [this]
        omega
      have ht : R_tier_check cfg 0 = Run.skip cfg := by
        unfold R_tier_check
        rw [if_neg (by omega)]
      have hd : R_defaults cfg 0
          = ⟨{ cfg with no_default_devices := 1 }, [Event.no_default_devices_set], none⟩ := by
        unfold R_defaults
        rw [if_neg (by omega)]
      have hap : R_apply x { cfg with no_default_devices := 1 } 0 a
          = ⟨list_clear { cfg with no_default_devices := 1 },
              [Event.stderr Diag.disabling_all_decoders, Event.list_clear], none⟩ := by
        unfold R_apply
        rw [if_neg (by omega), if_neg (by omega)]
      rw [hr, Run.skip_bind, ht, Run.skip_bind, hd, Run.bind_none, hap]
      rfl
    refine ⟨h0, hrun, ?_, ?_⟩ <;> rw [hrun] <;> rfl

/-- C8 (amended), at concrete inputs: no argument, and the argument `abc`
with descriptors 1 and 3 active. -/
theorem option_R_missing_or_malformed_witness :
    parse_conf_option demo_externals demo_cfg_active 'R' none
      = ⟨demo_cfg_active, [Event.stderr Diag.missing_argument_for_R], some (Stop.exit 1)⟩ ∧
    (after_sign "abc".toList).takeWhile isdigit = [] ∧
    (atoi "abc".toList = 0 ∧
      parse_conf_option demo_externals demo_cfg_active 'R' (some "abc".toList)
        = ⟨list_clear { demo_cfg_active with no_default_devices := 1 },
            [Event.no_default_devices_set, Event.stderr Diag.disabling_all_decoders,
              Event.list_clear], none⟩ ∧
      (parse_conf_option demo_externals demo_cfg_active 'R' (some "abc".toList)).cfg.demod.r_devs
        = [] ∧
      (parse_conf_option demo_externals demo_cfg_active 'R'
        (some "abc".toList)).cfg.no_default_devices = 1) :=
  ⟨(option_R_missing_or_malformed demo_externals demo_cfg_active).1, by decide,
    (option_R_missing_or_malformed demo_externals demo_cfg_active).2 "abc".toList (by decide)⟩

/-! ## Lemmas: the descriptor table -/

/-- In a numbered table the descriptor at index `i` has number `i + 1`. -/
theorem table_ok_protocol_num (cfg : r_cfg_t) (hok : table_ok cfg) (i : Nat) (d : r_device)
    (h : cfg.devices.get? i = some d) : d.protocol_num = i + 1 := by
  obtain ⟨_, _, hmap⟩ := hok
  have hi : i < cfg.devices.length := by
    rw [List.get?_eq_some] at h
    exact h.1
  have h1 := congrArg (fun l => l.get? i) hmap
  simp only [List.get?_eq_getElem?, List.getElem?_map] at h1 h
  rw [h, List.getElem?_range' _ _ hi] at h1
  simp at h1
  omega

/-- The table that `main` installs is numbered from 1 in table order. -/
theorem table_ok_main_install (cfg : r_cfg_t) (r_devices : List r_device)
    (h : r_devices.length < 2 ^ 31) : table_ok (main_install cfg r_devices) := by
  refine ⟨?_, h, ?_⟩
  · simp [main_install]
  · simp only [main_install, List.map_map, List.length_map, List.enum_length]
    have : ((fun r_dev : r_device => r_dev.protocol_num) ∘
        fun p : Nat × r_device => ({ p.2 with protocol_num := p.1 + 1 } : r_device))
        = (fun k => 1 + k) ∘ Prod.fst := by
      funext p; simp; omega
    rw [this, ← List.map_map, List.enum_map_fst, List.range'_eq_map_range]

/-- In a numbered table only the descriptor at index `m - 1` has number `m`. -/
theorem table_ok_unique (cfg : r_cfg_t) (hok : table_ok cfg) (m : Nat) (h1 : 1 ≤ m)
    (r_dev d : r_device) (hdev : cfg.devices.get? (m - 1) = some r_dev) (hd : d ∈ cfg.devices)
    (hnum : d.protocol_num = m) : d = r_dev := by
  obtain ⟨i, hi⟩ := List.get?_of_mem hd
  have := table_ok_protocol_num cfg hok i d hi
  have him : i = m - 1 := by omega
  rw [him, hdev] at hi
  exact (Option.some.inj hi).symm

/-- Sequencing keeps the table when both pieces keep it. -/
theorem Run.bind_table (r : Run) (f : r_cfg_t → Run) (cfg : r_cfg_t)
    (hr : r.cfg.devices = cfg.devices ∧ r.cfg.num_r_devices = cfg.num_r_devices)
    (hf : ∀ c, (f c).cfg.devices = c.devices ∧ (f c).cfg.num_r_devices = c.num_r_devices) :
    (r.bind f).cfg.devices = cfg.devices ∧ (r.bind f).cfg.num_r_devices = cfg.num_r_devices := by
  unfold Run.bind
  split
  · exact hr
  · exact ⟨(hf r.cfg).1.trans hr.1, (hf r.cfg).2.trans hr.2⟩

theorem R_range_check_table (cfg : r_cfg_t) (n : Int) :
    (R_range_check cfg n).cfg.devices = cfg.devices ∧
      (R_range_check cfg n).cfg.num_r_devices = cfg.num_r_devices := by
  unfold R_range_check Run.skip
  split <;> exact ⟨rfl, rfl⟩

theorem R_tier_check_table (cfg : r_cfg_t) (n : Int) :
    (R_tier_check cfg n).cfg.devices = cfg.devices ∧
      (R_tier_check cfg n).cfg.num_r_devices = cfg.num_r_devices := by
  unfold R_tier_check Run.skip
  split
  · split
    · exact ⟨rfl, rfl⟩
    · split <;> exact ⟨rfl, rfl⟩
  · exact ⟨rfl, rfl⟩

theorem R_defaults_table (cfg : r_cfg_t) (n : Int) :
    (R_defaults cfg n).cfg.devices = cfg.devices ∧
      (R_defaults cfg n).cfg.num_r_devices = cfg.num_r_devices := by
  unfold R_defaults
  split
  · simp [register_all_protocols_eq]
  · exact ⟨rfl, rfl⟩

theorem R_apply_table (x : Externals) (cfg : r_cfg_t) (n : Int) (a : CString) :
    (R_apply x cfg n a).cfg.devices = cfg.devices ∧
      (R_apply x cfg n a).cfg.num_r_devices = cfg.num_r_devices := by
  unfold R_apply
  split
  · split <;> exact ⟨rfl, rfl⟩
  · split
    · split <;> exact ⟨rfl, rfl⟩
    · exact ⟨rfl, rfl⟩

/-- The option handler never changes the descriptor table. -/
theorem parse_conf_option_table (x : Externals) (cfg : r_cfg_t) (opt : Char)
    (arg : Option CString) :
    (parse_conf_option x cfg opt arg).cfg.devices = cfg.devices ∧
      (parse_conf_option x cfg opt arg).cfg.num_r_devices = cfg.num_r_devices := by
  unfold parse_conf_option
  split
  · split <;> exact ⟨rfl, rfl⟩
  · split
    · unfold option_f
      split
      · split
        · exact ⟨rfl, rfl⟩
        · split <;> exact ⟨rfl, rfl⟩
      · exact ⟨rfl, rfl⟩
    · split
      · simp [register_all_protocols_eq]
      · split
        · split <;> exact ⟨rfl, rfl⟩
        · split
          · unfold option_R
            split
            · exact ⟨rfl, rfl⟩
            · rename_i a
              apply Run.bind_table _ _ cfg _ (fun c => R_apply_table x c (atoi a) a)
              apply Run.bind_table _ _ cfg _ (fun c => R_defaults_table c (atoi a))
              apply Run.bind_table _ _ cfg _ (fun c => R_tier_check_table c (atoi a))
              exact R_range_check_table cfg (atoi a)
          · exact ⟨rfl, rfl⟩

/-- The option handler keeps the table invariant of `main`. -/
theorem parse_conf_option_table_ok (x : Externals) (cfg : r_cfg_t) (opt : Char)
    (arg : Option CString) (hok : table_ok cfg) :
    table_ok (parse_conf_option x cfg opt arg).cfg := by
  obtain ⟨h1, h2⟩ := parse_conf_option_table x cfg opt arg
  unfold table_ok at *
  rw [h1, h2]
  exact hok

/-! ## Claims about the Activation Set after `-R` -/

/-- C10. From a state with an empty Activation Set and `no_default_devices`
= 0 (over the table as `main` numbers it), for `1 ≤ n ≤ N` with descriptor
`n` of a valid tier, `-R -n` followed
by the finalisation step of `main` returns with the Activation Set equal to
the tier-0 descriptors of the table, in table order, without descriptor `n`
(which is the whole tier-0 list when descriptor `n` is not of tier 0).  The
defaults are registered before the removal and the finalisation step
registers nothing. -/
theorem option_R_negative_fresh (x : Externals) (cfg : r_cfg_t) (b : CString) (m : Nat)
    (r_dev : r_device) (hok : table_ok cfg) (hempty : cfg.demod.r_devs = [])
    (hnd : cfg.no_default_devices = 0) (h1 : 1 ≤ m) (h2 : m ≤ cfg.num_r_devices)
    (hb : atoi b = -(m : Int)) (hdev : cfg.devices.get? (m - 1) = some r_dev)
    (ht : r_dev.disabled ≤ 2) :
    (parse_conf_option x cfg 'R' (some b)).stop = none ∧
    (main_finalize (parse_conf_option x cfg 'R' (some b)).cfg).stop = none ∧
    (main_finalize (parse_conf_option x cfg 'R' (some b)).cfg).cfg.demod.r_devs
      = ((cfg.devices.filter fun d => decide (d.disabled = 0)).filter
            fun d => decide (d ≠ r_dev)).map (fun d => { d with param := none }) ∧
    (r_dev.disabled ≠ 0 →
      (main_finalize (parse_conf_option x cfg 'R' (some b)).cfg).cfg.demod.r_devs
        = (cfg.devices.filter fun d => decide (d.disabled = 0)).map
            (fun d => { d with param := none })) ∧
    (parse_conf_option x cfg 'R' (some b)).trace
      = [Event.devices_read ((m - 1 : Nat) : Int), Event.register_all_protocols 0,
          Event.no_default_devices_set, Event.devices_read ((m - 1 : Nat) : Int),
          Event.unregister_protocol r_dev] ∧
    (main_finalize (parse_conf_option x cfg 'R' (some b)).cfg).trace = [] := by
  have hm : m < 2 ^ 31 := by
    obtain ⟨_, hN, _⟩ := hok
    omega
  have hnum : r_dev.protocol_num = m := by
    have := table_ok_protocol_num cfg hok (m - 1) r_dev hdev
    omega
  have hdef : R_defaults cfg (-(m : Int))
      = ⟨{ register_all_protocols cfg 0 with no_default_devices := 1 },
          [Event.register_all_protocols 0, Event.no_default_devices_set], none⟩ := by
    unfold R_defaults
    rw [if_pos ⟨by omega, hnd⟩]
  have hfilter : ∀ l : List r_device, (∀ d ∈ l, d ∈ cfg.devices) →
      l.filter (fun d => decide (d.protocol_num ≠ m)) = l.filter (fun d => decide (d ≠ r_dev)) := by
    intro l hl
    apply List.filter_congr
    intro d hd
    by_cases hdm : d.protocol_num = m
    · have := table_ok_unique cfg hok m h1 r_dev d hdev (hl d hd) hdm
      subst this
      simp [hnum]
    · have : d ≠ r_dev := fun h => hdm (h ▸ hnum)
      simp [hdm, this]
  have hset : (unregister_protocol
        { register_all_protocols cfg 0 with no_default_devices := 1 } r_dev).demod.r_devs
      = ((cfg.devices.filter fun d => decide (d.disabled = 0)).filter
            fun d => decide (d ≠ r_dev)).map (fun d => { d with param := none }) := by
    rw [← hfilter _ (fun d hd => List.mem_of_mem_filter hd)]
    show (register_all_protocols cfg 0).demod.r_devs.filter
        (fun p => decide (p.protocol_num ≠ r_dev.protocol_num)) = _
    rw [register_all_defaults_fresh cfg hok hempty, hnum, List.filter_map]
    rfl
  rw [option_R_neg_ok x cfg b m r_dev h1 h2 hm hb hdev ht, hdef]
  have hfin : main_finalize
      (unregister_protocol { register_all_protocols cfg 0 with no_default_devices := 1 } r_dev)
      = ⟨unregister_protocol { register_all_protocols cfg 0 with no_default_devices := 1 } r_dev,
          [], none⟩ := by
    unfold main_finalize
    rw [if_neg]
    · rfl
    · simp [unregister_protocol]
  refine ⟨rfl, ?_, ?_, ?_, rfl, ?_⟩
  · simp only [hfin]
  · simp only [hfin, hset]
  · intro htier
    simp only [hfin, hset]
    congr 1
    rw [List.filter_eq_self]
    intro d hd
    have hd0 : d.disabled = 0 := by simpa using (List.mem_filter.mp hd).2
    have : d ≠ r_dev := fun h => htier (h ▸ hd0)
    simp [this]
  · simp only [hfin]

/-- C10, at concrete inputs on the sample table (tier-0 descriptors 1 and
3): `-R -3` leaves descriptor 1, and `-R -2` (descriptor 2 has tier 1)
leaves descriptors 1 and 3. -/
theorem option_R_negative_fresh_witness :
    (table_ok demo_cfg ∧ demo_cfg.demod.r_devs = [] ∧ demo_cfg.no_default_devices = 0 ∧
      atoi "-3".toList = -3 ∧
      (main_finalize
          (parse_conf_option demo_externals demo_cfg 'R' (some "-3".toList)).cfg).cfg.demod.r_devs
        = ((demo_cfg.devices.filter fun d => decide (d.disabled = 0)).filter
              fun d => decide (d ≠ demo_dev3)).map (fun d => { d with param := none }) ∧
      ((demo_cfg.devices.filter fun d => decide (d.disabled = 0)).filter
              fun d => decide (d ≠ demo_dev3)).map (fun d => { d with param := none })
        = [demo_dev1]) ∧
    (atoi "-2".toList = -2 ∧ demo_dev2.disabled ≠ 0 ∧
      (main_finalize
          (parse_conf_option demo_externals demo_cfg 'R' (some "-2".toList)).cfg).cfg.demod.r_devs
        = (demo_cfg.devices.filter fun d => decide (d.disabled = 0)).map
            (fun d => { d with param := none }) ∧
      (demo_cfg.devices.filter fun d => decide (d.disabled = 0)).map
            (fun d => { d with param := none })
        = [demo_dev1, demo_dev3]) :=
  ⟨⟨by decide, by decide, by decide, by decide,
      (option_R_negative_fresh demo_externals demo_cfg "-3".toList 3 demo_dev3
        (by decide) (by decide) (by decide) (by decide) (by decide) (by decide) (by decide)
        (by decide)).2.2.1,
      by decide⟩,
    ⟨by decide, by decide,
      (option_R_negative_fresh demo_externals demo_cfg "-2".toList 2 demo_dev2
        (by decide) (by decide) (by decide) (by decide) (by decide) (by decide) (by decide)
        (by decide)).2.2.2.1 (by decide),
      by decide⟩⟩

/-! ## Lemmas: option sequences -/

theorem Run.bind_cfg_of_stop (r : Run) (f : r_cfg_t → Run) (st : Stop)
    (h : r.stop = some st) : r.bind f = r := by
  unfold Run.bind
  rw [h]

theorem Run.bind_of_return (r : Run) (f : r_cfg_t → Run) (h : r.stop = none) :
    r.bind f = ⟨(f r.cfg).cfg, r.trace ++ (f r.cfg).trace, (f r.cfg).stop⟩ := by
  unfold Run.bind
  rw [h]

/-- A run that returned after sequencing: both pieces returned. -/
theorem Run.bind_stop_none (r : Run) (f : r_cfg_t → Run) (h : (r.bind f).stop = none) :
    r.stop = none ∧ (f r.cfg).stop = none := by
  cases hr : r.stop with
  | some st =>
    rw [Run.bind_cfg_of_stop r f st hr] at h
    rw [hr] at h
    exact absurd h (by simp)
  | none =>
    rw [Run.bind_of_return r f hr] at h
    exact ⟨rfl, h⟩

/-- A property of the configuration that every admitted option keeps holds
after the whole option sequence, at the point where processing ends. -/
theorem parse_conf_args_invariant (x : Externals) (P : r_cfg_t → Prop)
    (Q : getopt_result → Prop)
    (hstep : ∀ c g, Q g → P c → P (parse_conf_option x c (option_letter g) g.optarg).cfg)
    (opts : List getopt_result) :
    ∀ cfg, (∀ g ∈ opts, Q g) → P cfg → P (parse_conf_args x cfg opts).cfg := by
  induction opts with
  | nil =>
    intro cfg _ h
    exact h
  | cons g rest ih =>
    intro cfg hQ h
    have h1 := hstep cfg g (hQ g (by simp)) h
    unfold parse_conf_args
    cases hr : (parse_conf_option x cfg (option_letter g) g.optarg).stop with
    | some st =>
      rw [Run.bind_cfg_of_stop _ _ st hr]
      exact h1
    | none =>
      rw [Run.bind_of_return _ _ hr]
      exact ih _ (fun g' hg' => hQ g' (by simp [hg'])) h1

/-- The options `v`, `f` and `s` leave the Activation Set, the flag
`no_default_devices` and the table as they are; they stop only when
`atouint32_metric` ends the process. -/
theorem parse_conf_option_vfs (x : Externals) (cfg : r_cfg_t) (opt : Char)
    (arg : Option CString) (h : opt = 'v' ∨ opt = 'f' ∨ opt = 's') :
    (parse_conf_option x cfg opt arg).cfg.demod = cfg.demod ∧
    (parse_conf_option x cfg opt arg).cfg.no_default_devices = cfg.no_default_devices ∧
    (parse_conf_option x cfg opt arg).cfg.devices = cfg.devices ∧
    ((∀ a, ∃ sr, x.atouint32_metric a = Except.ok sr) →
      (parse_conf_option x cfg opt arg).stop = none) := by
  rcases h with rfl | rfl | rfl
  · unfold parse_conf_option
    cases arg <;> simp
  · unfold parse_conf_option option_f
    simp only [Char.reduceEq, if_false, if_true]
    split
    · split
      · rename_i st hst
        refine ⟨rfl, rfl, rfl, ?_⟩
        intro hall
        obtain ⟨sr, hsr⟩ := hall arg
        rw [hsr] at hst
        cases hst
      · split <;> exact ⟨rfl, rfl, rfl, fun _ => rfl⟩
    · exact ⟨rfl, rfl, rfl, fun _ => rfl⟩
  · unfold parse_conf_option
    simp only [Char.reduceEq, if_false, if_true]
    split
    · rename_i st hst
      refine ⟨rfl, rfl, rfl, ?_⟩
      intro hall
      obtain ⟨sr, hsr⟩ := hall arg
      rw [hsr] at hst
      cases hst
    · exact ⟨rfl, rfl, rfl, fun _ => rfl⟩

/-- A sequence of options all of which return, returns. -/
theorem parse_conf_args_returns (x : Externals) (Q : getopt_result → Prop)
    (hstep : ∀ c g, Q g → (parse_conf_option x c (option_letter g) g.optarg).stop = none)
    (opts : List getopt_result) :
    ∀ cfg, (∀ g ∈ opts, Q g) → (parse_conf_args x cfg opts).stop = none := by
  induction opts with
  | nil =>
    intro cfg _
    rfl
  | cons g rest ih =>
    intro cfg hQ
    have hr := hstep cfg g (hQ g (by simp))
    unfold parse_conf_args
    rw [Run.bind_of_return _ _ hr]
    exact ih _ (fun g' hg' => hQ g' (by simp [hg']))

/-- The run of `-R` with an argument that `atoi` reads as 0. -/
theorem option_R_zero_run (x : Externals) (cfg : r_cfg_t) (a : CString) (h0 : atoi a = 0) :
    parse_conf_option x cfg 'R' (some a)
      = ⟨list_clear { cfg with no_default_devices := 1 },
          [Event.no_default_devices_set, Event.stderr Diag.disabling_all_decoders,
            Event.list_clear], none⟩ := by
  rw [parse_conf_option_R]
  unfold option_R
  simp only [h0]
  have hr : R_range_check cfg 0 = Run.skip cfg := by
    unfold R_range_check
    rw [if_neg]
    have : wrap32 (-0) = 0 := by decide
    rw [this]
    omega
  have ht : R_tier_check cfg 0 = Run.skip cfg := by
    unfold R_tier_check
    rw [if_neg (by omega)]
  have hd : R_defaults cfg 0
      = ⟨{ cfg with no_default_devices := 1 }, [Event.no_default_devices_set], none⟩ := by
    unfold R_defaults
    rw [if_neg (by omega)]
  have hap : R_apply x { cfg with no_default_devices := 1 } 0 a
      = ⟨list_clear { cfg with no_default_devices := 1 },
          [Event.stderr Diag.disabling_all_decoders, Event.list_clear], none⟩ := by
    unfold R_apply
    rw [if_neg (by omega), if_neg (by omega)]
  rw [hr, Run.skip_bind, ht, Run.skip_bind, hd, Run.bind_none, hap]
  rfl

/-! ## Claims about `-R 0` and the default activation -/

/-- C11. For every prior state, `-R` with an argument read as 0 returns
with the Activation Set empty and `no_default_devices` set, without reading
the table; the finalisation step of `main` that follows registers nothing,
so the set is still empty. -/
theorem option_R_zero (x : Externals) (cfg : r_cfg_t) (a : CString) (h0 : atoi a = 0) :
    (parse_conf_option x cfg 'R' (some a)).stop = none ∧
    (parse_conf_option x cfg 'R' (some a)).cfg.demod.r_devs = [] ∧
    (parse_conf_option x cfg 'R' (some a)).cfg.no_default_devices = 1 ∧
    devices_reads (parse_conf_option x cfg 'R' (some a)).trace = [] ∧
    (main_finalize (parse_conf_option x cfg 'R' (some a)).cfg).stop = none ∧
    (main_finalize (parse_conf_option x cfg 'R' (some a)).cfg).trace = [] ∧
    (main_finalize (parse_conf_option x cfg 'R' (some a)).cfg).cfg.demod.r_devs = [] := by
  rw [option_R_zero_run x cfg a h0]
  have hf := main_finalize_suppressed (list_clear { cfg with no_default_devices := 1 })
    (by simp [list_clear])
  refine ⟨rfl, rfl, rfl, rfl, ?_, ?_, ?_⟩
  · simp only [hf]
  · simp only [hf]
  · simp only [hf]
    rfl

/-- C11, at concrete inputs: `-R 0` on the sample configuration with
descriptors 1 and 3 active, before and after an earlier `-R 2`. -/
theorem option_R_zero_witness :
    (atoi "0".toList = 0 ∧ demo_cfg_active.demod.r_devs = [demo_dev1, demo_dev3] ∧
      demo_cfg_active.no_default_devices = 0 ∧
      (parse_conf_option demo_externals demo_cfg_active 'R' (some "0".toList)).cfg.demod.r_devs
        = [] ∧
      (main_finalize
          (parse_conf_option demo_externals demo_cfg_active 'R'
            (some "0".toList)).cfg).cfg.demod.r_devs = []) ∧
    ((parse_conf_option demo_externals demo_cfg_active 'R' (some "2".toList)).cfg.no_default_devices
        = 1 ∧
      (main_finalize
          (parse_conf_option demo_externals
            (parse_conf_option demo_externals demo_cfg_active 'R' (some "2".toList)).cfg 'R'
            (some "0".toList)).cfg).cfg.demod.r_devs = []) :=
  ⟨⟨by decide, by decide, by decide,
      (option_R_zero demo_externals demo_cfg_active "0".toList (by decide)).2.1,
      (option_R_zero demo_externals demo_cfg_active "0".toList (by decide)).2.2.2.2.2.2⟩,
    ⟨by decide,
      (option_R_zero demo_externals
        (parse_conf_option demo_externals demo_cfg_active 'R' (some "2".toList)).cfg
        "0".toList (by decide)).2.2.2.2.2.2⟩⟩

/-- The entries that the default registration adds have distinct numbers. -/
theorem tier0_ids_nodup (cfg : r_cfg_t) (hok : table_ok cfg) :
    (((cfg.devices.filter fun d => decide (d.disabled = 0)).map
        fun d => ({ d with param := none } : r_device)).map fun p => p.protocol_num).Nodup := by
  have hnd := selected_ids_nodup cfg hok (fun d => decide (d.disabled = 0))
  simpa [List.map_map, Function.comp] using hnd

/-- The finalisation step on a configuration whose defaults were not
suppressed. -/
theorem main_finalize_defaults (cfg : r_cfg_t) (h : cfg.no_default_devices = 0) :
    main_finalize cfg
      = ⟨register_all_protocols cfg 0, [Event.register_all_protocols 0], none⟩ := by
  unfold main_finalize
  rw [if_pos h]

/-- C12. From a state with an empty Activation Set and `no_default_devices`
= 0 (over the table as `main` numbers it), every sequence of `v`, `f` and
`s` options leaves `no_default_devices` at 0; the sequence returns when
`atouint32_metric` accepts the arguments; and when it returns, the
finalisation step of `main` yields exactly the tier-0 descriptors of the
table, in table order, each once. -/
theorem default_activation_fallback (x : Externals) (cfg : r_cfg_t)
    (opts : List getopt_result) (hok : table_ok cfg) (hempty : cfg.demod.r_devs = [])
    (hnd : cfg.no_default_devices = 0)
    (hopts : ∀ g ∈ opts,
      option_letter g = 'v' ∨ option_letter g = 'f' ∨ option_letter g = 's') :
    (parse_conf_args x cfg opts).cfg.no_default_devices = 0 ∧
    ((∀ a, ∃ sr, x.atouint32_metric a = Except.ok sr) →
      (parse_conf_args x cfg opts).stop = none) ∧
    ((parse_conf_args x cfg opts).stop = none →
      ((parse_conf_args x cfg opts).bind main_finalize).stop = none ∧
      ((parse_conf_args x cfg opts).bind main_finalize).cfg.demod.r_devs
        = (cfg.devices.filter fun d => decide (d.disabled = 0)).map
            (fun d => { d with param := none }) ∧
      (((parse_conf_args x cfg opts).bind main_finalize).cfg.demod.r_devs.map
        fun p => p.protocol_num).Nodup) := by
  have hinv := parse_conf_args_invariant x
    (fun c => c.demod = cfg.demod ∧ c.no_default_devices = cfg.no_default_devices ∧
      c.devices = cfg.devices ∧ c.num_r_devices = cfg.num_r_devices)
    (fun g => option_letter g = 'v' ∨ option_letter g = 'f' ∨ option_letter g = 's')
    (by
      intro c g hg hc
      obtain ⟨h1, h2, h3, _⟩ := parse_conf_option_vfs x c (option_letter g) g.optarg hg
      exact ⟨h1.trans hc.1, h2.trans hc.2.1, h3.trans hc.2.2.1,
        (parse_conf_option_table x c (option_letter g) g.optarg).2.trans hc.2.2.2⟩)
    opts cfg hopts ⟨rfl, rfl, rfl, rfl⟩
  obtain ⟨hd, hn, hdev, hnum⟩ := hinv
  refine ⟨hn.trans hnd, ?_, ?_⟩
  · intro hall
    exact parse_conf_args_returns x
      (fun g => option_letter g = 'v' ∨ option_letter g = 'f' ∨ option_letter g = 's')
      (fun c g hg => (parse_conf_option_vfs x c (option_letter g) g.optarg hg).2.2.2 hall)
      opts cfg hopts
  · intro hret
    have hok2 : table_ok (parse_conf_args x cfg opts).cfg := by
      unfold table_ok at hok ⊢
      rw [hdev, hnum]
      exact hok
    have hlist : (register_all_protocols (parse_conf_args x cfg opts).cfg 0).demod.r_devs
        = (cfg.devices.filter fun d => decide (d.disabled = 0)).map
            (fun d => { d with param := none }) := by
      rw [register_all_defaults_fresh _ hok2 (by rw [hd, hempty]), hdev]
    rw [Run.bind_of_return _ _ hret, main_finalize_defaults _ (hn.trans hnd)]
    refine ⟨rfl, hlist, ?_⟩
    show ((register_all_protocols (parse_conf_args x cfg opts).cfg 0).demod.r_devs.map
      fun p => p.protocol_num).Nodup
    rw [hlist]
    exact tier0_ids_nodup cfg hok

/-- C12, at a concrete input: the options `-v -f 433.92M -s 1M` on the
sample table leave descriptors 1 and 3, the two of tier 0. -/
theorem default_activation_fallback_witness :
    table_ok demo_cfg ∧
    ((parse_conf_args demo_externals demo_cfg
        [demo_opt 'v' none, demo_opt 'f' (some "433.92M".toList),
          demo_opt 's' (some "1M".toList)]).bind main_finalize).stop = none ∧
    ((parse_conf_args demo_externals demo_cfg
        [demo_opt 'v' none, demo_opt 'f' (some "433.92M".toList),
          demo_opt 's' (some "1M".toList)]).bind main_finalize).cfg.demod.r_devs
      = (demo_cfg.devices.filter fun d => decide (d.disabled = 0)).map
          (fun d => { d with param := none }) ∧
    (demo_cfg.devices.filter fun d => decide (d.disabled = 0)).map
        (fun d => { d with param := none }) = [demo_dev1, demo_dev3] :=
  ⟨by decide,
    ((default_activation_fallback demo_externals demo_cfg
      [demo_opt 'v' none, demo_opt 'f' (some "433.92M".toList), demo_opt 's' (some "1M".toList)]
      (by decide) (by decide) (by decide) (by decide)).2.2 (by decide)).1,
    ((default_activation_fallback demo_externals demo_cfg
      [demo_opt 'v' none, demo_opt 'f' (some "433.92M".toList), demo_opt 's' (some "1M".toList)]
      (by decide) (by decide) (by decide) (by decide)).2.2 (by decide)).2.1,
    by decide⟩
/-! ## Lemmas: invariants of the Activation Set -/

/-- Sequencing keeps a property of the configuration that both pieces keep. -/
theorem Run.bind_invariant (P : r_cfg_t → Prop) (r : Run) (f : r_cfg_t → Run)
    (hr : P r.cfg) (hf : ∀ c, P c → P (f c).cfg) : P (r.bind f).cfg := by
  unfold Run.bind
  split
  · exact hr
  · exact hf _ hr

theorem devices_at_mem (cfg : r_cfg_t) (i : Int) (r_dev : r_device)
    (h : devices_at cfg i = some r_dev) : r_dev ∈ cfg.devices := by
  unfold devices_at at h
  split at h
  · exact List.get?_mem h
  · cases h

theorem foldl_register_invariant (P : r_cfg_t → Prop) (lvl : Nat)
    (hreg : ∀ c d arg, P c → d ∈ c.devices → P (register_protocol c d arg))
    (l : List r_device) :
    ∀ c : r_cfg_t, (∀ d ∈ l, d ∈ c.devices) → P c →
      P (l.foldl (fun c r_dev =>
        if lvl ≠ 0 ∨ r_dev.disabled = 0 then register_protocol c r_dev none else c) c) := by
  induction l with
  | nil =>
    intro c _ h
    exact h
  | cons d l ih =>
    intro c hl h
    rw [List.foldl_cons]
    split
    · exact ih _ (fun d' hd' => hl d' (by simp [hd'])) (hreg c d none h (hl d (by simp)))
    · exact ih _ (fun d' hd' => hl d' (by simp [hd'])) h

/-- The call `register_all_protocols` keeps every property of the
configuration that `register_protocol` keeps. -/
theorem register_all_protocols_invariant (P : r_cfg_t → Prop) (lvl : Nat)
    (hreg : ∀ c d arg, P c → d ∈ c.devices → P (register_protocol c d arg))
    (cfg : r_cfg_t) (h : P cfg) : P (register_all_protocols cfg lvl) := by
  unfold register_all_protocols
  exact foldl_register_invariant P lvl hreg cfg.devices cfg (fun _ hd => hd) h

/-- A property of Activation Set and table that the registry operations
keep is kept by every option, also up to the point where the option stops. -/
theorem parse_conf_option_invariant (P : r_cfg_t → Prop)
    (hother : ∀ c c2 : r_cfg_t, c2.demod = c.demod → c2.devices = c.devices → P c → P c2)
    (hreg : ∀ c d arg, P c → d ∈ c.devices → P (register_protocol c d arg))
    (hunreg : ∀ c d, P c → P (unregister_protocol c d))
    (hclear : ∀ c, P (list_clear c))
    (x : Externals) (cfg : r_cfg_t) (opt : Char) (arg : Option CString) (h : P cfg) :
    P (parse_conf_option x cfg opt arg).cfg := by
  unfold parse_conf_option
  split
  · split <;> exact hother cfg _ rfl rfl h
  · split
    · unfold option_f
      split
      · split
        · exact h
        · split <;> exact hother cfg _ rfl rfl h
      · exact h
    · split
      · exact register_all_protocols_invariant P 1 hreg _ (hother cfg _ rfl rfl h)
      · split
        · split
          · exact h
          · exact hother cfg _ rfl rfl h
        · split
          · unfold option_R
            split
            · exact h
            · rename_i a
              apply Run.bind_invariant P
              · apply Run.bind_invariant P
                · apply Run.bind_invariant P
                  · unfold R_range_check Run.skip
                    split <;> exact h
                  · intro c hc
                    unfold R_tier_check Run.skip
                    split
                    · split
                      · exact hc
                      · split <;> exact hc
                    · exact hc
                · intro c hc
                  unfold R_defaults
                  split
                  · exact hother (register_all_protocols c 0) _ rfl rfl
                      (register_all_protocols_invariant P 0 hreg c hc)
                  · exact hother c _ rfl rfl hc
              · intro c hc
                unfold R_apply
                split
                · split
                  · exact hc
                  · rename_i r_dev hdev
                    exact hreg c r_dev _ hc (devices_at_mem c _ r_dev hdev)
                · split
                  · split
                    · exact hc
                    · exact hunreg c _ hc
                  · exact hclear c
          · exact h

/-- The finalisation step keeps what the registry operations keep. -/
theorem main_finalize_invariant (P : r_cfg_t → Prop)
    (hreg : ∀ c d arg, P c → d ∈ c.devices → P (register_protocol c d arg))
    (cfg : r_cfg_t) (h : P cfg) : P (main_finalize cfg).cfg := by
  unfold main_finalize update_protocols
  split
  · exact register_all_protocols_invariant P 0 hreg cfg h
  · exact h

/-- Registering keeps the entries within the table. -/
theorem entries_in_table_register (c : r_cfg_t) (d : r_device) (arg : Option CString)
    (h : entries_in_table c) (hd : d ∈ c.devices) :
    entries_in_table (register_protocol c d arg) := by
  intro p hp
  simp only [register_protocol, List.mem_append, List.mem_filter, List.mem_singleton] at hp
  rcases hp with ⟨hp, _⟩ | rfl
  · exact h p hp
  · exact ⟨d, hd, rfl⟩

/-- Registering keeps the ids of the entries distinct. -/
theorem unique_ids_register (c : r_cfg_t) (d : r_device) (arg : Option CString)
    (h : unique_ids c) : unique_ids (register_protocol c d arg) := by
  unfold unique_ids at h ⊢
  simp only [register_protocol, List.map_append, List.map_cons, List.map_nil]
  rw [List.nodup_append]
  refine ⟨List.Nodup.sublist (List.Sublist.map _ (List.filter_sublist _)) h, by simp, ?_⟩
  intro a ha hb
  simp only [List.mem_map, List.mem_filter, decide_eq_true_eq] at ha
  obtain ⟨p, ⟨_, hne⟩, rfl⟩ := ha
  simp only [List.mem_singleton] at hb
  exact hne hb

/-- Unregistering keeps the ids of the entries distinct. -/
theorem unique_ids_unregister (c : r_cfg_t) (d : r_device) (h : unique_ids c) :
    unique_ids (unregister_protocol c d) := by
  unfold unique_ids at h ⊢
  exact List.Nodup.sublist (List.Sublist.map _ (List.filter_sublist _)) h

/-- Every option keeps the entries of the Activation Set within the table. -/
theorem parse_conf_option_entries (x : Externals) (cfg : r_cfg_t) (opt : Char)
    (arg : Option CString) (h : entries_in_table cfg) :
    entries_in_table (parse_conf_option x cfg opt arg).cfg :=
  parse_conf_option_invariant entries_in_table
    (fun c c2 hd hdev hc p hp => by
      rw [hd] at hp
      obtain ⟨r, hr, hpr⟩ := hc p hp
      exact ⟨r, hdev ▸ hr, hpr⟩)
    (fun c d arg hc hd => entries_in_table_register c d arg hc hd)
    (fun c d hc p hp => by
      simp only [unregister_protocol, List.mem_filter] at hp
      exact hc p hp.1)
    (fun c p hp => by simp [list_clear] at hp)
    x cfg opt arg h

/-- Every option keeps the ids of the entries distinct. -/
theorem parse_conf_option_unique (x : Externals) (cfg : r_cfg_t) (opt : Char)
    (arg : Option CString) (h : unique_ids cfg) :
    unique_ids (parse_conf_option x cfg opt arg).cfg :=
  parse_conf_option_invariant unique_ids
    (fun c c2 hd _ hc => by
      unfold unique_ids at hc ⊢
      rw [hd]
      exact hc)
    (fun c d arg hc _ => unique_ids_register c d arg hc)
    (fun c d hc => unique_ids_unregister c d hc)
    (fun c => by simp [unique_ids, list_clear])
    x cfg opt arg h

/-! ## Claims about register-all and the uniqueness of entries -/

/-- The run of the register-all option. -/
theorem option_G_run (x : Externals) (cfg : r_cfg_t) (arg : Option CString) :
    parse_conf_option x cfg 'G' arg
      = ⟨register_all_protocols { cfg with no_default_devices := 1 } 1,
          [Event.no_default_devices_set, Event.register_all_protocols 1], none⟩ := by
  unfold parse_conf_option
  simp only [Char.reduceEq, if_false, if_true]

/-- The flag `no_default_devices` is not touched by `register_all_protocols`. -/
theorem register_all_protocols_flag (cfg : r_cfg_t) (lvl : Nat) :
    (register_all_protocols cfg lvl).no_default_devices = cfg.no_default_devices := by
  rw [register_all_protocols_eq]

/-- C13. For every prior state, over the table as `main` numbers it, the
register-all option returns with `no_default_devices` set (it is set before
the registration), and afterwards every descriptor of the table is in the
Activation Set, whatever its tier: default-disabled and hidden descriptors
as well as those of tier 0. -/
theorem option_G_registers (x : Externals) (cfg : r_cfg_t) (arg : Option CString)
    (hok : table_ok cfg) :
    (parse_conf_option x cfg 'G' arg).stop = none ∧
    (parse_conf_option x cfg 'G' arg).cfg.no_default_devices = 1 ∧
    (∀ d ∈ cfg.devices,
      ({ d with param := none } : r_device)
        ∈ (parse_conf_option x cfg 'G' arg).cfg.demod.r_devs) ∧
    (parse_conf_option x cfg 'G' arg).cfg.devices = cfg.devices ∧
    (parse_conf_option x cfg 'G' arg).trace
      = [Event.no_default_devices_set, Event.register_all_protocols 1] := by
  rw [option_G_run]
  refine ⟨rfl, ?_, ?_, ?_, rfl⟩
  · exact register_all_protocols_flag _ 1
  · intro d hd
    have hok2 : table_ok { cfg with no_default_devices := 1 } := hok
    show ({ d with param := none } : r_device)
      ∈ (register_all_protocols { cfg with no_default_devices := 1 } 1).demod.r_devs
    rw [register_all_protocols_r_devs _ hok2 1]
    simp only [List.mem_append, List.mem_map, List.mem_filter]
    exact Or.inr ⟨d, ⟨hd, by simp⟩, rfl⟩
  · show (register_all_protocols { cfg with no_default_devices := 1 } 1).devices = cfg.devices
    rw [register_all_protocols_eq]

/-- C13, at a concrete input: the register-all option on the sample table
of five descriptors (tiers 0, 1, 0, 3, 2) activates all five, the hidden
descriptor 5 and the default-disabled descriptor 2 among them. -/
theorem option_G_registers_witness :
    table_ok demo_cfg5 ∧ demo_dev5.disabled = 2 ∧ demo_dev2.disabled = 1 ∧
    (parse_conf_option demo_externals demo_cfg5 'G' none).cfg.demod.r_devs
      = [demo_dev1, demo_dev2, demo_dev3, demo_dev4, demo_dev5] ∧
    (parse_conf_option demo_externals demo_cfg5 'G' none).cfg.no_default_devices = 1 ∧
    (∀ d ∈ demo_cfg5.devices,
      ({ d with param := none } : r_device)
        ∈ (parse_conf_option demo_externals demo_cfg5 'G' none).cfg.demod.r_devs) :=
  ⟨by decide, by decide, by decide, by decide,
    (option_G_registers demo_externals demo_cfg5 none (by decide)).2.1,
    (option_G_registers demo_externals demo_cfg5 none (by decide)).2.2.1⟩

/-- C14. Starting from the empty Activation Set, after every sequence of
options followed by the finalisation step of `main` (at the point where the
run returns or stops) the Activation Set holds at most one entry per numeric
id, the table is the one of before, and every entry refers to a descriptor
of the table: it is that descriptor with a parameter attached. -/
theorem activation_set_unique (x : Externals) (cfg : r_cfg_t) (opts : List getopt_result)
    (hempty : cfg.demod.r_devs = []) :
    unique_ids ((parse_conf_args x cfg opts).bind main_finalize).cfg ∧
    ((parse_conf_args x cfg opts).bind main_finalize).cfg.devices = cfg.devices ∧
    ∀ p ∈ ((parse_conf_args x cfg opts).bind main_finalize).cfg.demod.r_devs,
      ∃ r_dev ∈ cfg.devices, p = { r_dev with param := p.param } := by
  have h0 : unique_ids cfg ∧ cfg.devices = cfg.devices ∧ entries_in_table cfg :=
    ⟨by simp [unique_ids, hempty], rfl, fun p hp => by rw [hempty] at hp; cases hp⟩
  have hargs := parse_conf_args_invariant x
    (fun c => unique_ids c ∧ c.devices = cfg.devices ∧ entries_in_table c) (fun _ => True)
    (fun c g _ hc =>
      ⟨parse_conf_option_unique x c (option_letter g) g.optarg hc.1,
        (parse_conf_option_table x c (option_letter g) g.optarg).1.trans hc.2.1,
        parse_conf_option_entries x c (option_letter g) g.optarg hc.2.2⟩)
    opts cfg (fun _ _ => trivial) h0
  have hfin := Run.bind_invariant
    (fun c => unique_ids c ∧ c.devices = cfg.devices ∧ entries_in_table c)
    (parse_conf_args x cfg opts) main_finalize hargs (by
      intro c hc
      refine ⟨main_finalize_invariant unique_ids
          (fun c d arg hc _ => unique_ids_register c d arg hc) c hc.1, ?_,
        main_finalize_invariant entries_in_table
          (fun c d arg hc hd => entries_in_table_register c d arg hc hd) c hc.2.2⟩
      unfold main_finalize update_protocols
      split
      · rw [register_all_protocols_eq]
        exact hc.2.1
      · exact hc.2.1)
  refine ⟨hfin.1, hfin.2.1, ?_⟩
  intro p hp
  obtain ⟨r_dev, hr, hpe⟩ := hfin.2.2 p hp
  exact ⟨r_dev, hfin.2.1 ▸ hr, hpe⟩

/-- C14, at concrete inputs on the sample table: after `-R 3 -R 3`, after
`-G -R 3` and after `-R -5 -R 3` (descriptor 3 has tier 0) descriptor 3 has
one entry, and the ids of the set are distinct. -/
theorem activation_set_unique_witness :
    demo_cfg5.demod.r_devs = [] ∧
    (((parse_conf_args demo_externals demo_cfg5
        [demo_opt 'R' (some "3".toList), demo_opt 'R' (some "3".toList)]).bind
      main_finalize).cfg.demod.r_devs.map fun p => p.protocol_num) = [3] ∧
    (((parse_conf_args demo_externals demo_cfg5
        [demo_opt 'G' none, demo_opt 'R' (some "3".toList)]).bind
      main_finalize).cfg.demod.r_devs.map fun p => p.protocol_num) = [1, 2, 4, 5, 3] ∧
    (((parse_conf_args demo_externals demo_cfg5
        [demo_opt 'R' (some "-5".toList), demo_opt 'R' (some "3".toList)]).bind
      main_finalize).cfg.demod.r_devs.map fun p => p.protocol_num) = [1, 3] ∧
    (unique_ids ((parse_conf_args demo_externals demo_cfg5
        [demo_opt 'G' none, demo_opt 'R' (some "3".toList)]).bind main_finalize).cfg ∧
    ((parse_conf_args demo_externals demo_cfg5
        [demo_opt 'G' none, demo_opt 'R' (some "3".toList)]).bind
      main_finalize).cfg.devices = demo_cfg5.devices ∧
    ∀ p ∈ ((parse_conf_args demo_externals demo_cfg5
        [demo_opt 'G' none, demo_opt 'R' (some "3".toList)]).bind
      main_finalize).cfg.demod.r_devs,
      ∃ r_dev ∈ demo_cfg5.devices, p = { r_dev with param := p.param }) :=
  ⟨by decide, by decide, by decide, by decide,
    activation_set_unique demo_externals demo_cfg5
      [demo_opt 'G' none, demo_opt 'R' (some "3".toList)] (by decide)⟩

/-! ## Claims about the exit status and the dispatcher -/

/-- Every call of `process_test_data` leaves a trace. -/
theorem process_test_data_trace_ne_nil (x : Externals) (cfg : r_cfg_t) (demod : dm_state)
    (line : CString) : (process_test_data x cfg demod line).trace ≠ [] := by
  by_cases h : line.head? = some '['
  · by_cases he : (strtol line.tail).2.head? = some ']'
    · rw [process_test_data_lookup x cfg demod line h he]
      split <;> simp
    · rw [process_test_data_bad_number x cfg demod line h he]
      simp
  · rw [process_test_data_no_bracket x cfg demod line h]
    simp

/-- C16. When option processing and the finalisation step have returned,
`main` exits with status 0 or 1: with 0 exactly when no line could be read
or `process_test_data` returned a non-negative result, with 1 exactly when
`process_test_data` returned a negative result.  Without a line the trace
of `main` is the one of the option processing: `process_test_data` is not
called. -/
theorem main_exit_status (x : Externals) (r_devices : List r_device)
    (opts : List getopt_result) (line : Option CString)
    (hret : ((parse_conf_args x (main_install (r_init_cfg x) r_devices) opts).bind
      main_finalize).stop = none) :
    ((main x r_devices opts line).status = some 0 ∨
      (main x r_devices opts line).status = some 1) ∧
    ((main x r_devices opts line).status = some 0 ↔
      line = none ∨ ∃ l, line = some l ∧
        0 ≤ (process_test_data x
          ((parse_conf_args x (main_install (r_init_cfg x) r_devices) opts).bind
            main_finalize).cfg
          ((parse_conf_args x (main_install (r_init_cfg x) r_devices) opts).bind
            main_finalize).cfg.demod l).ret) ∧
    ((main x r_devices opts line).status = some 1 ↔
      ∃ l, line = some l ∧
        (process_test_data x
          ((parse_conf_args x (main_install (r_init_cfg x) r_devices) opts).bind
            main_finalize).cfg
          ((parse_conf_args x (main_install (r_init_cfg x) r_devices) opts).bind
            main_finalize).cfg.demod l).ret < 0) ∧
    (line = none →
      (main x r_devices opts line).trace
        = ((parse_conf_args x (main_install (r_init_cfg x) r_devices) opts).bind
            main_finalize).trace) := by
  unfold main
  generalize (parse_conf_args x (main_install (r_init_cfg x) r_devices) opts).bind
    main_finalize = run at hret ⊢
  obtain ⟨cfg, t, stop⟩ := run
  simp only at hret
  subst hret
  cases line with
  | none => simp
  | some l =>
    simp only [Option.some.injEq, exists_eq_left', false_or]
    by_cases hneg : (process_test_data x cfg cfg.demod l).ret < 0
    · simp [hneg]
    · simp [hneg]
      omega

/-- C16, at concrete inputs on the sample table with `-R 3`: an accepted
line gives status 0, an unknown protocol number gives status 1, and end of
input gives status 0. -/
theorem main_exit_status_witness :
    (main demo_externals demo_cfg5.devices [demo_opt 'R' (some "3".toList)]
        (some "[3]x".toList)).status = some 0 ∧
    (main demo_externals demo_cfg5.devices [demo_opt 'R' (some "3".toList)]
        (some "[2]x".toList)).status = some 1 ∧
    (main demo_externals demo_cfg5.devices [demo_opt 'R' (some "3".toList)] none).status
      = some 0 ∧
    ((main demo_externals demo_cfg5.devices [demo_opt 'R' (some "3".toList)]
        (some "[2]x".toList)).status = some 1 ↔
      ∃ l, some "[2]x".toList = some l ∧
        (process_test_data demo_externals
          ((parse_conf_args demo_externals
              (main_install (r_init_cfg demo_externals) demo_cfg5.devices)
              [demo_opt 'R' (some "3".toList)]).bind main_finalize).cfg
          ((parse_conf_args demo_externals
              (main_install (r_init_cfg demo_externals) demo_cfg5.devices)
              [demo_opt 'R' (some "3".toList)]).bind main_finalize).cfg.demod l).ret < 0) :=
  ⟨by decide, by decide, by decide,
    (main_exit_status demo_externals demo_cfg5.devices [demo_opt 'R' (some "3".toList)]
      (some "[2]x".toList) (by decide)).2.2.1⟩

/-- Replacing an entry by itself leaves the list as it is. -/
theorem update_r_dev_same (d : Nat) (leaves : r_device → r_device)
    (h : ∀ p, leaves p = p) : ∀ l : List r_device, update_r_dev d leaves l = l := by
  intro l
  induction l with
  | nil => rfl
  | cons p rest ih =>
    unfold update_r_dev
    split
    · rw [h p]
    · rw [ih]

/-- C17. For every line and two configurations that share the Activation
Set, whatever their other fields, `process_test_data` returns the same
result, reads the same entries of the set and makes the same decoder call
with the same payload.  The call never changes the configuration; it leaves
the Activation Set as it is whenever no decoder is called, and also when the
decoder leaves its descriptor unchanged, as the spec has it: then a second
call on the state that the first one left gives the same run. -/
theorem process_test_data_config_independent (x : Externals)
    (leaves : CString → r_device → r_device) (cfg1 cfg2 : r_cfg_t)
    (demod : dm_state) (line : CString) :
    (process_test_data x cfg1 demod line).ret = (process_test_data x cfg2 demod line).ret ∧
    decode_calls (process_test_data x cfg1 demod line).trace
      = decode_calls (process_test_data x cfg2 demod line).trace ∧
    r_devs_reads (process_test_data x cfg1 demod line).trace
      = r_devs_reads (process_test_data x cfg2 demod line).trace ∧
    (process_test_data_state leaves cfg1 demod line).1 = cfg1 ∧
    (decode_calls (process_test_data x cfg1 demod line).trace = [] →
      process_test_data_state leaves cfg1 demod line = (cfg1, demod)) ∧
    ((∀ e r_dev, leaves e r_dev = r_dev) →
      process_test_data_state leaves cfg1 demod line = (cfg1, demod) ∧
      process_test_data x (process_test_data_state leaves cfg1 demod line).1
          (process_test_data_state leaves cfg1 demod line).2 line
        = process_test_data x cfg1 demod line) ∧
    process_test_data_state decoder_leaves cfg1 demod line = (cfg1, demod) := by
  have hpure : ∀ lv : CString → r_device → r_device, (∀ e r_dev, lv e r_dev = r_dev) →
      process_test_data_state lv cfg1 demod line = (cfg1, demod) := by
    intro lv hlv
    unfold process_test_data_state
    split
    · split
      · rfl
      · split
        · rfl
        · rw [update_r_dev_same _ _ (fun p => hlv _ p)]
    · rfl
  refine ⟨?_, ?_, ?_, ?_, ?_, ?_, hpure decoder_leaves (fun _ _ => rfl)⟩
  · by_cases h : line.head? = some '['
    · by_cases he : (strtol line.tail).2.head? = some ']'
      · rw [process_test_data_lookup x cfg1 demod line h he,
          process_test_data_lookup x cfg2 demod line h he]
        split <;> rfl
      · rw [process_test_data_bad_number x cfg1 demod line h he,
          process_test_data_bad_number x cfg2 demod line h he]
    · rw [process_test_data_no_bracket x cfg1 demod line h,
        process_test_data_no_bracket x cfg2 demod line h]
  · rw [decode_calls_process_test_data, decode_calls_process_test_data]
  · by_cases h : line.head? = some '['
    · by_cases he : (strtol line.tail).2.head? = some ']'
      · rw [process_test_data_lookup x cfg1 demod line h he,
          process_test_data_lookup x cfg2 demod line h he]
        split <;>
          simp [r_devs_reads_append, r_devs_reads_verbose_msg, r_devs_reads]
      · rw [process_test_data_bad_number x cfg1 demod line h he,
          process_test_data_bad_number x cfg2 demod line h he]
        simp [r_devs_reads_append, r_devs_reads_verbose_msg, r_devs_reads]
    · rw [process_test_data_no_bracket x cfg1 demod line h,
        process_test_data_no_bracket x cfg2 demod line h]
      simp [r_devs_reads_append, r_devs_reads_verbose_msg, r_devs_reads]
  · unfold process_test_data_state
    split
    · split
      · rfl
      · split <;> rfl
    · rfl
  · intro hno
    rw [decode_calls_process_test_data] at hno
    unfold process_test_data_state
    split
    · rename_i h
      split
      · rfl
      · rename_i he
        have he2 : (strtol line.tail).2.head? = some ']' := by simpa using he
        rw [if_pos ⟨h, he2⟩, ← scan_r_devs_eq_find] at hno
        split
        · rfl
        · rename_i r hr
          rw [hr] at hno
          simp at hno
    · rfl
  · intro hlv
    have hs := hpure leaves hlv
    rw [hs]
    exact ⟨rfl, rfl⟩

/-- C17, at concrete inputs: the line `[3]x` on the sample Activation Set
with two configurations of different verbosity and flag; the decoder is
called and leaves its descriptor unchanged. -/
theorem process_test_data_config_independent_witness :
    decode_calls (process_test_data demo_externals demo_cfg demo_demod "[3]x".toList).trace
      = [(['x'], demo_dev3)] ∧
    (process_test_data demo_externals demo_cfg demo_demod "[3]x".toList).ret
      = (process_test_data demo_externals
          { demo_cfg with verbosity := 2, no_default_devices := 1 } demo_demod "[3]x".toList).ret ∧
    (process_test_data_state (fun _ r_dev => r_dev) demo_cfg demo_demod "[3]x".toList
        = (demo_cfg, demo_demod) ∧
      process_test_data demo_externals
          (process_test_data_state (fun _ r_dev => r_dev) demo_cfg demo_demod "[3]x".toList).1
          (process_test_data_state (fun _ r_dev => r_dev) demo_cfg demo_demod "[3]x".toList).2
          "[3]x".toList
        = process_test_data demo_externals demo_cfg demo_demod "[3]x".toList) :=
  ⟨by decide,
    (process_test_data_config_independent demo_externals (fun _ r_dev => r_dev) demo_cfg
      { demo_cfg with verbosity := 2, no_default_devices := 1 } demo_demod "[3]x".toList).1,
    (process_test_data_config_independent demo_externals (fun _ r_dev => r_dev) demo_cfg
      demo_cfg demo_demod "[3]x".toList).2.2.2.2.2.1 (fun _ _ => rfl)⟩

/-! ## Claims about the default-suppression flag -/

/-- No option clears `no_default_devices`. -/
theorem parse_conf_option_flag_kept (x : Externals) (cfg : r_cfg_t) (opt : Char)
    (arg : Option CString) (h : cfg.no_default_devices ≠ 0) :
    (parse_conf_option x cfg opt arg).cfg.no_default_devices ≠ 0 := by
  unfold parse_conf_option
  split
  · split <;> exact h
  · split
    · unfold option_f
      split
      · split
        · exact h
        · split <;> exact h
      · exact h
    · split
      · simp [register_all_protocols_eq]
      · split
        · split <;> exact h
        · split
          · unfold option_R
            split
            · exact h
            · rename_i a
              apply Run.bind_invariant (fun c => c.no_default_devices ≠ 0)
              · apply Run.bind_invariant (fun c => c.no_default_devices ≠ 0)
                · apply Run.bind_invariant (fun c => c.no_default_devices ≠ 0)
                  · unfold R_range_check Run.skip
                    split <;> exact h
                  · intro c hc
                    unfold R_tier_check Run.skip
                    split
                    · split
                      · exact hc
                      · split <;> exact hc
                    · exact hc
                · intro c _
                  unfold R_defaults
                  split <;> simp
              · intro c hc
                unfold R_apply
                split
                · split <;> exact hc
                · split
                  · split <;> exact hc
                  · exact hc
          · exact h

/-- An `R` option that returns leaves `no_default_devices` at 1. -/
theorem option_R_sets_flag (x : Externals) (cfg : r_cfg_t) (arg : Option CString)
    (hret : (parse_conf_option x cfg 'R' arg).stop = none) :
    (parse_conf_option x cfg 'R' arg).cfg.no_default_devices = 1 := by
  rw [parse_conf_option_R] at hret ⊢
  unfold option_R at hret ⊢
  cases arg with
  | none => simp at hret
  | some a =>
    simp only at hret ⊢
    obtain ⟨h123, _⟩ := Run.bind_stop_none _ _ hret
    rw [Run.bind_of_return _ _ h123]
    obtain ⟨h12, _⟩ := Run.bind_stop_none _ _ h123
    rw [Run.bind_of_return _ _ h12]
    have hflag := (R_defaults_devices
      ((R_range_check cfg (atoi a)).bind fun c => R_tier_check c (atoi a)).cfg (atoi a)).2.2
    simp only
    generalize (R_defaults
      ((R_range_check cfg (atoi a)).bind fun c => R_tier_check c (atoi a)).cfg (atoi a)).cfg
      = c at hflag ⊢
    unfold R_apply
    split
    · split <;> exact hflag
    · split
      · split <;> exact hflag
      · exact hflag

/-- After an option sequence that returns and holds an `R` or a `G`, the
flag `no_default_devices` is set. -/
theorem parse_conf_args_flag (x : Externals) (opts : List getopt_result) :
    ∀ cfg, (∃ g ∈ opts, option_letter g = 'R' ∨ option_letter g = 'G') →
      (parse_conf_args x cfg opts).stop = none →
      (parse_conf_args x cfg opts).cfg.no_default_devices ≠ 0 := by
  induction opts with
  | nil =>
    intro cfg hex
    obtain ⟨g, hg, _⟩ := hex
    cases hg
  | cons g rest ih =>
    intro cfg hex hret
    unfold parse_conf_args at hret ⊢
    obtain ⟨h1, h2⟩ := Run.bind_stop_none _ _ hret
    rw [Run.bind_of_return _ _ h1]
    simp only
    by_cases hg : option_letter g = 'R' ∨ option_letter g = 'G'
    · have hset : (parse_conf_option x cfg (option_letter g) g.optarg).cfg.no_default_devices
          ≠ 0 := by
        rcases hg with hR | hG
        · rw [hR] at h1 ⊢
          rw [option_R_sets_flag x cfg g.optarg h1]
          decide
        · rw [hG, option_G_run]
          show (register_all_protocols { cfg with no_default_devices := 1 } 1).no_default_devices
            ≠ 0
          rw [register_all_protocols_flag]
          exact Nat.one_ne_zero
      exact parse_conf_args_invariant x (fun c => c.no_default_devices ≠ 0) (fun _ => True)
        (fun c g' _ hc => parse_conf_option_flag_kept x c (option_letter g') g'.optarg hc)
        rest _ (fun _ _ => trivial) hset
    · obtain ⟨g', hg', hl⟩ := hex
      rcases List.mem_cons.mp hg' with rfl | hin
      · exact absurd hl hg
      · exact ih _ ⟨g', hin, hl⟩ h2

/-- C18. An `R` option that returns (n positive, negative or zero) and
every `G` option leave `no_default_devices` at 1, and no option clears the
flag once it is set.  So after an option sequence that returns and holds an
`R` or a `G`, the finalisation step of `main` registers nothing and leaves
the Activation Set as it is; and `-R -m` with the flag already set
registers no defaults: it only removes descriptor `m` from the set. -/
theorem default_suppression (x : Externals) (cfg : r_cfg_t) :
    (∀ arg, (parse_conf_option x cfg 'R' arg).stop = none →
      (parse_conf_option x cfg 'R' arg).cfg.no_default_devices = 1) ∧
    (∀ arg, (parse_conf_option x cfg 'G' arg).stop = none ∧
      (parse_conf_option x cfg 'G' arg).cfg.no_default_devices = 1) ∧
    (∀ opt arg, cfg.no_default_devices ≠ 0 →
      (parse_conf_option x cfg opt arg).cfg.no_default_devices ≠ 0) ∧
    (∀ opts, (∃ g ∈ opts, option_letter g = 'R' ∨ option_letter g = 'G') →
      (parse_conf_args x cfg opts).stop = none →
      main_finalize (parse_conf_args x cfg opts).cfg
        = ⟨(parse_conf_args x cfg opts).cfg, [], none⟩) ∧
    (∀ (b : CString) (m : Nat) (r_dev : r_device), cfg.no_default_devices ≠ 0 →
      1 ≤ m → m ≤ cfg.num_r_devices → m < 2 ^ 31 → atoi b = -(m : Int) →
      cfg.devices.get? (m - 1) = some r_dev → r_dev.disabled ≤ 2 →
      (parse_conf_option x cfg 'R' (some b)).stop = none ∧
      (parse_conf_option x cfg 'R' (some b)).cfg.demod.r_devs
        = cfg.demod.r_devs.filter (fun p => decide (p.protocol_num ≠ r_dev.protocol_num)) ∧
      register_calls (parse_conf_option x cfg 'R' (some b)).trace = []) := by
  refine ⟨fun arg h => option_R_sets_flag x cfg arg h, ?_,
    fun opt arg h => parse_conf_option_flag_kept x cfg opt arg h, ?_, ?_⟩
  · intro arg
    rw [option_G_run]
    exact ⟨rfl, register_all_protocols_flag _ 1⟩
  · intro opts hex hret
    exact main_finalize_suppressed _ (parse_conf_args_flag x opts cfg hex hret)
  · intro b m r_dev hflag h1 h2 hm hb hdev ht
    have hdef : R_defaults cfg (-(m : Int))
        = ⟨{ cfg with no_default_devices := 1 }, [Event.no_default_devices_set], none⟩ := by
      unfold R_defaults
      rw [if_neg (fun h => hflag h.2)]
    rw [option_R_neg_ok x cfg b m r_dev h1 h2 hm hb hdev ht, hdef]
    exact ⟨rfl, rfl, rfl⟩

/-- C18, at concrete inputs on the sample table: `-R 2 -R -1` from the
set of descriptors 1 and 3 yields descriptors 3 and 2 (the prior set plus 2
minus 1, no defaults added), and the finalisation step changes nothing. -/
theorem default_suppression_witness :
    (parse_conf_args demo_externals demo_cfg_active
        [demo_opt 'R' (some "2".toList), demo_opt 'R' (some "-1".toList)]).stop = none ∧
    (parse_conf_args demo_externals demo_cfg_active
        [demo_opt 'R' (some "2".toList), demo_opt 'R' (some "-1".toList)]).cfg.demod.r_devs
      = [demo_dev3, { demo_dev2 with param := some "2".toList }] ∧
    main_finalize (parse_conf_args demo_externals demo_cfg_active
        [demo_opt 'R' (some "2".toList), demo_opt 'R' (some "-1".toList)]).cfg
      = ⟨(parse_conf_args demo_externals demo_cfg_active
        [demo_opt 'R' (some "2".toList), demo_opt 'R' (some "-1".toList)]).cfg, [], none⟩ ∧
    (parse_conf_option demo_externals demo_cfg_active 'R' (some "2".toList)).cfg.no_default_devices
      = 1 :=
  ⟨by decide, by decide,
    (default_suppression demo_externals demo_cfg_active).2.2.2.1
      [demo_opt 'R' (some "2".toList), demo_opt 'R' (some "-1".toList)]
      ⟨demo_opt 'R' (some "2".toList), by decide, by decide⟩ (by decide),
    (default_suppression demo_externals demo_cfg_active).1 (some "2".toList) (by decide)⟩

/-! ## Claims about the frequency list and the table index -/

theorem frequency_writes_append (s t : List Event) :
    frequency_writes (s ++ t) = frequency_writes s ++ frequency_writes t := by
  induction s with
  | nil => rfl
  | cons ev s ih => cases ev <;> simp [frequency_writes, ih]

theorem devices_reads_append (s t : List Event) :
    devices_reads (s ++ t) = devices_reads s ++ devices_reads t := by
  induction s with
  | nil => rfl
  | cons ev s ih => cases ev <;> simp [devices_reads, ih]

/-- Storing at index `n` makes the first `n + 1` slots the first `n` slots
of before followed by the stored value. -/
theorem take_set_succ (l : List Nat) (a : Nat) :
    ∀ n, n < l.length → (l.set n a).take (n + 1) = l.take n ++ [a] := by
  induction l with
  | nil =>
    intro n h
    simp at h
  | cons b l ih =>
    intro n h
    cases n with
    | zero => simp
    | succ n =>
      simp only [List.set_cons_succ, List.take_succ_cons, List.cons_append, List.cons.injEq,
        true_and]
      exact ih n (by simpa using h)

/-- Sequencing keeps a property of configuration and trace that the first
piece establishes and the second keeps. -/
theorem Run.bind_invariant_trace (P : r_cfg_t → Prop) (T : List Event → Prop)
    (hT : ∀ s t, T s → T t → T (s ++ t)) (r : Run) (f : r_cfg_t → Run)
    (hr : P r.cfg ∧ T r.trace) (hf : ∀ c, P c → P (f c).cfg ∧ T (f c).trace) :
    P (r.bind f).cfg ∧ T (r.bind f).trace := by
  unfold Run.bind
  split
  · exact hr
  · exact ⟨(hf _ hr.1).1, hT _ _ hr.2 (hf _ hr.1).2⟩

/-- The steps of `case 'R'` do not touch the frequency list. -/
theorem option_R_frequencies (x : Externals) (cfg : r_cfg_t) (arg : Option CString) :
    (option_R x cfg arg).cfg.frequencies = cfg.frequencies ∧
      frequency_writes (option_R x cfg arg).trace = [] := by
  unfold option_R
  split
  · exact ⟨rfl, rfl⟩
  · rename_i a
    have hT : ∀ s t : List Event, frequency_writes s = [] → frequency_writes t = [] →
        frequency_writes (s ++ t) = [] := by
      intro s t hs ht
      rw [frequency_writes_append, hs, ht]
      rfl
    apply Run.bind_invariant_trace (fun c => c.frequencies = cfg.frequencies)
      (fun t => frequency_writes t = []) hT
    · apply Run.bind_invariant_trace (fun c => c.frequencies = cfg.frequencies)
        (fun t => frequency_writes t = []) hT
      · apply Run.bind_invariant_trace (fun c => c.frequencies = cfg.frequencies)
          (fun t => frequency_writes t = []) hT
        · unfold R_range_check Run.skip
          split <;> exact ⟨rfl, rfl⟩
        · intro c hc
          unfold R_tier_check Run.skip
          split
          · split
            · exact ⟨hc, rfl⟩
            · split <;> exact ⟨hc, rfl⟩
          · exact ⟨hc, rfl⟩
      · intro c hc
        unfold R_defaults
        split
        · refine ⟨?_, rfl⟩
          rw [register_all_protocols_eq]
          exact hc
        · exact ⟨hc, rfl⟩
    · intro c hc
      unfold R_apply
      split
      · split <;> exact ⟨hc, rfl⟩
      · split
        · split <;> exact ⟨hc, rfl⟩
        · exact ⟨hc, rfl⟩

/-- C19. With a frequency count of at most `MAX_FREQS` before the call,
every option leaves it at most `MAX_FREQS` and writes into the frequency
array below index `MAX_FREQS` only.  An `f` option with count below
`MAX_FREQS` whose argument parses to `sr` returns with `sr` stored at index
count, right behind the frequencies held so far, and the count raised by
one.  An `f` option with count `MAX_FREQS` returns with the configuration
unchanged (list, count and sample rate) after the diagnostic, whatever the
argument. -/
theorem frequency_capacity (x : Externals) (cfg : r_cfg_t) (arg : Option CString)
    (hcap : cfg.frequencies ≤ x.MAX_FREQS) :
    (∀ opt, (parse_conf_option x cfg opt arg).cfg.frequencies ≤ x.MAX_FREQS ∧
      ∀ i ∈ frequency_writes (parse_conf_option x cfg opt arg).trace, i < x.MAX_FREQS) ∧
    (∀ sr, cfg.frequencies < x.MAX_FREQS → cfg.frequencies < cfg.frequency.length →
      x.atouint32_metric arg = Except.ok sr →
      (parse_conf_option x cfg 'f' arg).stop = none ∧
      (parse_conf_option x cfg 'f' arg).cfg.frequencies = cfg.frequencies + 1 ∧
      (parse_conf_option x cfg 'f' arg).cfg.frequency
        = cfg.frequency.set cfg.frequencies sr ∧
      (parse_conf_option x cfg 'f' arg).cfg.frequency.take
          (parse_conf_option x cfg 'f' arg).cfg.frequencies
        = cfg.frequency.take cfg.frequencies ++ [sr] ∧
      frequency_writes (parse_conf_option x cfg 'f' arg).trace = [cfg.frequencies]) ∧
    (cfg.frequencies = x.MAX_FREQS →
      parse_conf_option x cfg 'f' arg
        = ⟨cfg, [Event.stderr (Diag.max_frequencies_reached x.MAX_FREQS)], none⟩) := by
  refine ⟨?_, ?_, ?_⟩
  · intro opt
    unfold parse_conf_option
    split
    · split <;> exact ⟨hcap, by simp [frequency_writes]⟩
    · split
      · unfold option_f
        split
        · rename_i hlt
          split
          · exact ⟨hcap, by simp [frequency_writes]⟩
          · split
            · refine ⟨Nat.succ_le_of_lt hlt, ?_⟩
              simp [frequency_writes, hlt]
            · refine ⟨Nat.succ_le_of_lt hlt, ?_⟩
              simp [frequency_writes, hlt]
        · exact ⟨hcap, by simp [frequency_writes]⟩
      · split
        · refine ⟨?_, by simp [frequency_writes]⟩
          rw [register_all_protocols_eq]
          exact hcap
        · split
          · split <;> exact ⟨hcap, by simp [frequency_writes]⟩
          · split
            · obtain ⟨h1, h2⟩ := option_R_frequencies x cfg arg
              rw [h1, h2]
              exact ⟨hcap, by simp⟩
            · exact ⟨hcap, by simp [frequency_writes]⟩
  · intro sr hlt hlen hsr
    have htake : (cfg.frequency.set cfg.frequencies sr).take (cfg.frequencies + 1)
        = cfg.frequency.take cfg.frequencies ++ [sr] :=
      take_set_succ cfg.frequency sr cfg.frequencies hlen
    unfold parse_conf_option option_f
    simp only [Char.reduceEq, if_false, if_true, hlt, hsr]
    split
    · exact ⟨rfl, rfl, rfl, htake, rfl⟩
    · exact ⟨rfl, rfl, rfl, htake, rfl⟩
  · intro heq
    unfold parse_conf_option option_f
    simp [heq]

/-- C19, at concrete inputs: `-f 868M` on the sample configuration stores
868000000 in slot 0 and raises the count to 1; on the configuration with a
full list (32 of 32, sample rate at its default) it changes nothing. -/
theorem frequency_capacity_witness :
    (demo_cfg.frequencies < demo_externals_868.MAX_FREQS ∧
      (parse_conf_option demo_externals_868 demo_cfg 'f' (some "868M".toList)).stop = none ∧
      (parse_conf_option demo_externals_868 demo_cfg 'f' (some "868M".toList)).cfg.frequencies
        = demo_cfg.frequencies + 1 ∧
      (parse_conf_option demo_externals_868 demo_cfg 'f' (some "868M".toList)).cfg.frequency
        = demo_cfg.frequency.set demo_cfg.frequencies 868000000 ∧
      (parse_conf_option demo_externals_868 demo_cfg 'f' (some "868M".toList)).cfg.frequency.take
          (parse_conf_option demo_externals_868 demo_cfg 'f' (some "868M".toList)).cfg.frequencies
        = demo_cfg.frequency.take demo_cfg.frequencies ++ [868000000] ∧
      frequency_writes
          (parse_conf_option demo_externals_868 demo_cfg 'f' (some "868M".toList)).trace
        = [demo_cfg.frequencies]) ∧
    (demo_cfg_full.frequencies = demo_externals_868.MAX_FREQS ∧
      demo_cfg_full.samp_rate = demo_externals_868.DEFAULT_SAMPLE_RATE ∧
      parse_conf_option demo_externals_868 demo_cfg_full 'f' (some "868M".toList)
        = ⟨demo_cfg_full,
            [Event.stderr (Diag.max_frequencies_reached demo_externals_868.MAX_FREQS)], none⟩) :=
  ⟨⟨by decide,
      (frequency_capacity demo_externals_868 demo_cfg (some "868M".toList) (by decide)).2.1
        868000000 (by decide) (by decide) rfl⟩,
    ⟨by decide, by decide,
      (frequency_capacity demo_externals_868 demo_cfg_full (some "868M".toList)
        (by decide)).2.2 (by decide)⟩⟩

/-- For every `n` but the most negative `int`, every read of the descriptor
table in `case 'R'` is at an index in `0 .. N-1`, and for `n = 0` the table
is not read at all. -/
theorem option_R_index_safe (x : Externals) (cfg : r_cfg_t) (a : CString)
    (hmin : atoi a ≠ -2 ^ 31) :
    (∀ i ∈ devices_reads (parse_conf_option x cfg 'R' (some a)).trace,
      0 ≤ i ∧ i < (cfg.num_r_devices : Int)) ∧
    (atoi a = 0 → devices_reads (parse_conf_option x cfg 'R' (some a)).trace = []) := by
  constructor
  · have hr := atoi_range a
    rw [parse_conf_option_R]
    unfold option_R
    simp only
    generalize atoi a = n at hmin hr ⊢
    have hw : wrap32 (-n) = -n := wrap32_of_range _ (by omega) (by omega)
    by_cases hfat : n > (cfg.num_r_devices : Int) ∨ wrap32 (-n) > (cfg.num_r_devices : Int)
    · have : R_range_check cfg n
          = ⟨cfg, [Event.stderr (Diag.protocol_number_too_large n)], some (Stop.exit 1)⟩ := by
        unfold R_range_check
        rw [if_pos hfat]
      rw [this]
      simp [devices_reads]
    · have : R_range_check cfg n = Run.skip cfg := by
        unfold R_range_check
        rw [if_neg hfat]
      rw [this, Run.skip_bind]
      rw [hw] at hfat
      have hT : ∀ s t : List Event,
          (∀ i ∈ devices_reads s, 0 ≤ i ∧ i < (cfg.num_r_devices : Int)) →
          (∀ i ∈ devices_reads t, 0 ≤ i ∧ i < (cfg.num_r_devices : Int)) →
          ∀ i ∈ devices_reads (s ++ t), 0 ≤ i ∧ i < (cfg.num_r_devices : Int) := by
        intro s t hs ht i hi
        rw [devices_reads_append, List.mem_append] at hi
        rcases hi with hi | hi
        · exact hs i hi
        · exact ht i hi
      have hidx : n ≠ 0 → 0 ≤ R_index n ∧ R_index n < (cfg.num_r_devices : Int) := by
        intro hn
        unfold R_index
        split
        · omega
        · rw [hw, wrap32_of_range _ (by omega) (by omega)]
          omega
      have hidx2 : n ≤ -1 → 0 ≤ wrap32 (wrap32 (-n) - 1) ∧
          wrap32 (wrap32 (-n) - 1) < (cfg.num_r_devices : Int) := by
        intro hn
        rw [hw, wrap32_of_range _ (by omega) (by omega)]
        omega
      refine (Run.bind_invariant_trace (fun c => c.num_r_devices = cfg.num_r_devices)
        (fun t => ∀ i ∈ devices_reads t, 0 ≤ i ∧ i < (cfg.num_r_devices : Int)) hT _ _ ?_ ?_).2
      · apply Run.bind_invariant_trace (fun c => c.num_r_devices = cfg.num_r_devices)
          (fun t => ∀ i ∈ devices_reads t, 0 ≤ i ∧ i < (cfg.num_r_devices : Int)) hT
        · unfold R_tier_check Run.skip
          split
          · rename_i hn
            have := hidx (by omega)
            split
            · exact ⟨rfl, by simpa [devices_reads] using this⟩
            · split <;> exact ⟨rfl, by simpa [devices_reads] using this⟩
          · exact ⟨rfl, by simp [devices_reads]⟩
        · intro c hc
          unfold R_defaults
          split
          · refine ⟨?_, by simp [devices_reads]⟩
            rw [register_all_protocols_eq]
            exact hc
          · exact ⟨hc, by simp [devices_reads]⟩
      · intro c hc
        unfold R_apply
        split
        · rename_i hn
          have h1 : 0 ≤ n - 1 ∧ n - 1 < (cfg.num_r_devices : Int) := by omega
          split <;> exact ⟨hc, by simpa [devices_reads] using h1⟩
        · split
          · rename_i hn
            have := hidx2 hn
            split <;> exact ⟨hc, by simpa [devices_reads] using this⟩
          · exact ⟨hc, by simp [devices_reads]⟩
  · intro h0
    rw [option_R_zero_run x cfg a h0]
    rfl

/-- C20 (the code at the failing input). With a table of five descriptors
the argument `-2147483648` is not stopped at the range check, and the
handler then reads the descriptor table at index 2147483647, which is not
in `0 .. N-1`. -/
theorem option_R_index_out_of_table :
    atoi "-2147483648".toList = -2147483648 ∧
    (R_range_check demo_cfg5 (atoi "-2147483648".toList)).stop = none ∧
    devices_reads
        (parse_conf_option demo_externals demo_cfg5 'R' (some "-2147483648".toList)).trace
      = [2147483647] ∧
    ¬ ((2147483647 : Int) < (demo_cfg5.num_r_devices : Int)) := by
  decide

/-! ## The initial state of `main` -/

/-- The state in which `main` starts option processing: the table numbered
from 1, the Activation Set empty, `no_default_devices` clear. -/
theorem main_initial_state (x : Externals) (r_devices : List r_device)
    (h : r_devices.length < 2 ^ 31) :
    table_ok (main_install (r_init_cfg x) r_devices) ∧
    (main_install (r_init_cfg x) r_devices).demod.r_devs = [] ∧
    (main_install (r_init_cfg x) r_devices).no_default_devices = 0 ∧
    (main_install (r_init_cfg x) r_devices).frequencies = 0 :=
  ⟨table_ok_main_install (r_init_cfg x) r_devices h, rfl, rfl, rfl⟩

/-! ## Claims about the keyword table -/

end RtlFuzz
